import Mathlib

/-!
Shallow embedding of the NIP-98 HTTP authentication engine of
`nostria-management` (`src/app/core/services/nip98-auth.service.ts` and
`src/app/core/services/nostr-extension.service.ts`).

Modelling conventions:
* JavaScript strings are modelled as `List Char`.  JS `toUpperCase` /
  `toLowerCase` are modelled by mapping Lean's ASCII-range `Char.toUpper` /
  `Char.toLower` over the characters.
* Byte sequences are `List Nat` with every element `< 256`.
* JS numbers that occur in the service (`kind`, `created_at`, Unix clock
  readings) are integers; they are modelled as `Int` (for the clock and
  timestamps) and JSON numbers as `Int`.
* `TextEncoder.encode` / `TextDecoder.decode` are modelled by UTF-8
  encoding/decoding.  The JS decoder replaces invalid sequences with U+FFFD
  instead of failing; the model returns `none` on invalid input.  The claims
  under study only exercise the decoder on valid UTF-8.
* `sha256` (from `@noble/hashes`) is modelled by a full executable SHA-256
  implementation on byte lists, and `bytesToHex` by lowercase hex encoding.
* `base64` (from `@scure/base`) is modelled by standard base64 with `=`
  padding.
* `JSON.stringify` / `JSON.parse` are modelled over an inductive JSON value
  type whose numbers are integers; fractional or exponent-form number
  literals and surrogate `\uXXXX` escapes are modelled as parse failures,
  none of which occur in tokens produced by the engine.
-/

namespace Nip98

/-! ## Characters and case mapping -/

/-- Model of JS `String.prototype.toLowerCase` (ASCII range). -/
def asciiLower (s : List Char) : List Char := s.map Char.toLower

/-- Model of JS `String.prototype.toUpperCase` (ASCII range). -/
def asciiUpper (s : List Char) : List Char := s.map Char.toUpper

/-! ## UTF-8 (model of `TextEncoder` / `TextDecoder`) -/

/-- UTF-8 encoding of a single scalar value. -/
def utf8EncodeChar (c : Char) : List Nat :=
  if c.toNat < 128 then [c.toNat]
  else if c.toNat < 2048 then [192 + c.toNat / 64, 128 + c.toNat % 64]
  else if c.toNat < 65536 then
    [224 + c.toNat / 4096, 128 + c.toNat / 64 % 64, 128 + c.toNat % 64]
  else
    [240 + c.toNat / 262144, 128 + c.toNat / 4096 % 64,
     128 + c.toNat / 64 % 64, 128 + c.toNat % 64]

/-- Model of `TextEncoder.encode`. -/
def utf8Encode : List Char → List Nat
  | [] => []
  | c :: cs => utf8EncodeChar c ++ utf8Encode cs

/-- Is `b` a UTF-8 continuation byte? -/
def contByte (b : Nat) : Bool := decide (128 ≤ b) && decide (b < 192)

/-- Classification of a UTF-8 leading byte by the sequence length it opens. -/
inductive ByteClass where
  | ascii
  | two
  | three
  | four
  | bad

/-- Classify a leading byte. -/
def byteClass (b : Nat) : ByteClass :=
  if b < 128 then .ascii
  else if b < 192 then .bad
  else if b < 224 then .two
  else if b < 240 then .three
  else if b < 248 then .four
  else .bad

/-- Model of `TextDecoder.decode` (strict: invalid input yields `none`). -/
def utf8Decode : List Nat → Option (List Char)
  | [] => some []
  | b :: rest =>
    match byteClass b, rest with
    | .ascii, rest2 => (utf8Decode rest2).map (fun cs => Char.ofNat b :: cs)
    | .two, b1 :: r =>
      if contByte b1 &&
          decide (128 ≤ (b - 192) * 64 + (b1 - 128)) then
        (utf8Decode r).map (fun cs => Char.ofNat ((b - 192) * 64 + (b1 - 128)) :: cs)
      else none
    | .three, b1 :: b2 :: r =>
      if contByte b1 && contByte b2 &&
          decide (2048 ≤ (b - 224) * 4096 + (b1 - 128) * 64 + (b2 - 128)) &&
          !(decide (55296 ≤ (b - 224) * 4096 + (b1 - 128) * 64 + (b2 - 128)) &&
            decide ((b - 224) * 4096 + (b1 - 128) * 64 + (b2 - 128) < 57344)) then
        (utf8Decode r).map
          (fun cs => Char.ofNat ((b - 224) * 4096 + (b1 - 128) * 64 + (b2 - 128)) :: cs)
      else none
    | .four, b1 :: b2 :: b3 :: r =>
      if contByte b1 && contByte b2 && contByte b3 &&
          decide (65536 ≤ (b - 240) * 262144 + (b1 - 128) * 4096 +
            (b2 - 128) * 64 + (b3 - 128)) &&
          decide ((b - 240) * 262144 + (b1 - 128) * 4096 +
            (b2 - 128) * 64 + (b3 - 128) < 1114112) then
        (utf8Decode r).map
          (fun cs => Char.ofNat ((b - 240) * 262144 + (b1 - 128) * 4096 +
            (b2 - 128) * 64 + (b3 - 128)) :: cs)
      else none
    | _, _ => none

/-! ## Base64 (model of `@scure/base` `base64`) -/

/-- The standard base64 alphabet. -/
def b64Alphabet : List Char :=
  "ABCDEFGHIJKLMNOPQRSTUVWXYZabcdefghijklmnopqrstuvwxyz0123456789+/".data

/-- Character for a six-bit group. -/
def b64Char (n : Nat) : Char := b64Alphabet.getD n 'A'

/-- Index of a character in a list, if present. -/
def indexOfFrom : List Char → Char → Nat → Option Nat
  | [], _, _ => none
  | a :: r, c, i => if a = c then some i else indexOfFrom r c (i + 1)

/-- Six-bit value of a base64 character, if valid. -/
def b64Value (c : Char) : Option Nat := indexOfFrom b64Alphabet c 0

/-- Model of `base64.encode`. -/
def b64Encode : List Nat → List Char
  | [] => []
  | [a] => [b64Char (a / 4), b64Char (a % 4 * 16), '=', '=']
  | [a, b] =>
    [b64Char (a / 4), b64Char (a % 4 * 16 + b / 16), b64Char (b % 16 * 4), '=']
  | a :: b :: c :: rest =>
    b64Char (a / 4) :: b64Char (a % 4 * 16 + b / 16) ::
      b64Char (b % 16 * 4 + c / 64) :: b64Char (c % 64) :: b64Encode rest

/-- Model of `base64.decode` (strict padding, as in `@scure/base`). -/
def b64Decode : List Char → Option (List Nat)
  | [] => some []
  | c0 :: c1 :: c2 :: c3 :: rest =>
    if c2 = '=' then
      if c3 = '=' ∧ rest = [] then
        (b64Value c0).bind fun v0 =>
          (b64Value c1).bind fun v1 =>
            if v1 % 16 = 0 then some [v0 * 4 + v1 / 16] else none
      else none
    else if c3 = '=' then
      if rest = [] then
        (b64Value c0).bind fun v0 =>
          (b64Value c1).bind fun v1 =>
            (b64Value c2).bind fun v2 =>
              if v2 % 4 = 0 then some [v0 * 4 + v1 / 16, v1 % 16 * 16 + v2 / 4]
              else none
      else none
    else
      (b64Value c0).bind fun v0 =>
        (b64Value c1).bind fun v1 =>
          (b64Value c2).bind fun v2 =>
            (b64Value c3).bind fun v3 =>
              (b64Decode rest).map fun bs =>
                (v0 * 4 + v1 / 16) :: (v1 % 16 * 16 + v2 / 4) ::
                  (v2 % 4 * 64 + v3) :: bs
  | _ => none

/-! ## SHA-256 (model of `@noble/hashes` `sha256`) and hex output -/

/-- Combine two machine words bit by bit (`fuel` = word width). -/
def bitOp (f : Bool → Bool → Bool) : Nat → Nat → Nat → Nat
  | 0, _, _ => 0
  | k + 1, a, b =>
    (if f (a % 2 = 1) (b % 2 = 1) then 1 else 0) + 2 * bitOp f k (a / 2) (b / 2)

/-- 32-bit exclusive or. -/
def xor32 (a b : Nat) : Nat := bitOp Bool.xor 32 a b

/-- 32-bit conjunction. -/
def and32 (a b : Nat) : Nat := bitOp Bool.and 32 a b

/-- 32-bit complement. -/
def not32 (a : Nat) : Nat := 4294967295 - a % 4294967296

/-- 32-bit addition. -/
def add32 (a b : Nat) : Nat := (a + b) % 4294967296

/-- Right rotation of a 32-bit word. -/
def rotr (k a : Nat) : Nat := a / 2 ^ k + a % 2 ^ k * 2 ^ (32 - k)

/-- The eight working words of the SHA-256 state. -/
structure Hash8 where
  w0 : Nat
  w1 : Nat
  w2 : Nat
  w3 : Nat
  w4 : Nat
  w5 : Nat
  w6 : Nat
  w7 : Nat

/-- SHA-256 initial state (fractional parts of the square roots of the
first eight primes, as 32-bit words, written in decimal). -/
def shaInit : Hash8 :=
  ⟨1779033703, 3144134277, 1013904242, 2773480762,
   1359893119, 2600822924, 528734635, 1541459225⟩

/-- SHA-256 round constants (fractional parts of the cube roots of the
first 64 primes, as 32-bit words, written in decimal). -/
def shaK : List Nat :=
  [1116352408, 1899447441, 3049323471, 3921009573, 961987163,
   1508970993, 2453635748, 2870763221, 3624381080, 310598401,
   607225278, 1426881987, 1925078388, 2162078206, 2614888103,
   3248222580, 3835390401, 4022224774, 264347078, 604807628,
   770255983, 1249150122, 1555081692, 1996064986, 2554220882,
   2821834349, 2952996808, 3210313671, 3336571891, 3584528711,
   113926993, 338241895, 666307205, 773529912, 1294757372,
   1396182291, 1695183700, 1986661051, 2177026350, 2456956037,
   2730485921, 2820302411, 3259730800, 3345764771, 3516065817,
   3600352804, 4094571909, 275423344, 430227734, 506948616,
   659060556, 883997877, 958139571, 1322822218, 1537002063,
   1747873779, 1955562222, 2024104815, 2227730452, 2361852424,
   2428436474, 2756734187, 3204031479, 3329325298]

/-- Group bytes into big-endian 32-bit words. -/
def toWords : List Nat → List Nat
  | b0 :: b1 :: b2 :: b3 :: rest =>
    (b0 * 16777216 + b1 * 65536 + b2 * 256 + b3) :: toWords rest
  | _ => []

/-- The next word of the message schedule, extending `ws`. -/
def nextScheduleWord (ws : List Nat) : Nat :=
  let n := ws.length
  let s0 := xor32 (rotr 7 (ws.getD (n - 15) 0))
    (xor32 (rotr 18 (ws.getD (n - 15) 0)) (ws.getD (n - 15) 0 / 8))
  let s1 := xor32 (rotr 17 (ws.getD (n - 2) 0))
    (xor32 (rotr 19 (ws.getD (n - 2) 0)) (ws.getD (n - 2) 0 / 1024))
  add32 (add32 (ws.getD (n - 16) 0) s0) (add32 (ws.getD (n - 7) 0) s1)

/-- Extend the 16 message words to 64. -/
def extendSchedule : Nat → List Nat → List Nat
  | 0, ws => ws
  | k + 1, ws => extendSchedule k (ws ++ [nextScheduleWord ws])

/-- One SHA-256 compression round. -/
def shaRound (st : Hash8) (kw : Nat × Nat) : Hash8 :=
  let s1 := xor32 (rotr 6 st.w4) (xor32 (rotr 11 st.w4) (rotr 25 st.w4))
  let ch := xor32 (and32 st.w4 st.w5) (and32 (not32 st.w4) st.w6)
  let t1 := add32 st.w7 (add32 s1 (add32 ch (add32 kw.1 kw.2)))
  let s0 := xor32 (rotr 2 st.w0) (xor32 (rotr 13 st.w0) (rotr 22 st.w0))
  let mj := xor32 (and32 st.w0 st.w1) (xor32 (and32 st.w0 st.w2) (and32 st.w1 st.w2))
  let t2 := add32 s0 mj
  ⟨add32 t1 t2, st.w0, st.w1, st.w2, add32 st.w3 t1, st.w4, st.w5, st.w6⟩

/-- Run the 64 compression rounds. -/
def shaRounds (st : Hash8) : List (Nat × Nat) → Hash8
  | [] => st
  | kw :: rest => shaRounds (shaRound st kw) rest

/-- Process one 64-byte chunk. -/
def processChunk (st : Hash8) (chunk : List Nat) : Hash8 :=
  let ws := extendSchedule 48 (toWords chunk)
  let fin := shaRounds st (shaK.zip ws)
  ⟨add32 st.w0 fin.w0, add32 st.w1 fin.w1, add32 st.w2 fin.w2,
   add32 st.w3 fin.w3, add32 st.w4 fin.w4, add32 st.w5 fin.w5,
   add32 st.w6 fin.w6, add32 st.w7 fin.w7⟩

/-- Big-endian bytes of a number, `k` bytes wide. -/
def natToBytesBE : Nat → Nat → List Nat
  | 0, _ => []
  | k + 1, n => natToBytesBE k (n / 256) ++ [n % 256]

/-- SHA-256 message padding. -/
def shaPad (msg : List Nat) : List Nat :=
  msg ++ [128] ++
    List.replicate ((64 + 56 - (msg.length + 1) % 64) % 64) 0 ++
    natToBytesBE 8 (msg.length * 8)

/-- Split into 64-byte chunks (`fuel` bounds the number of steps). -/
def chunksOf64 : Nat → List Nat → List (List Nat)
  | 0, _ => []
  | _, [] => []
  | fue + 1, l => l.take 64 :: chunksOf64 fue (l.drop 64)

/-- SHA-256 final state of a byte message. -/
def sha256Words (msg : List Nat) : Hash8 :=
  let padded := shaPad msg
  (chunksOf64 padded.length padded).foldl processChunk shaInit

/-- Big-endian bytes of one 32-bit word. -/
def wordBytes (w : Nat) : List Nat :=
  [w / 16777216 % 256, w / 65536 % 256, w / 256 % 256, w % 256]

/-- Model of `sha256`: the 32-byte digest of a byte message. -/
def sha256 (msg : List Nat) : List Nat :=
  let d := sha256Words msg
  wordBytes d.w0 ++ wordBytes d.w1 ++ wordBytes d.w2 ++ wordBytes d.w3 ++
    wordBytes d.w4 ++ wordBytes d.w5 ++ wordBytes d.w6 ++ wordBytes d.w7

/-- The lowercase hexadecimal alphabet. -/
def hexCharsLower : List Char := "0123456789abcdef".data

/-- Lowercase hexadecimal digit. -/
def hexDigit (n : Nat) : Char := hexCharsLower.getD n 'f'

/-- Model of `bytesToHex` from `@noble/hashes`. -/
def bytesToHex : List Nat → List Char
  | [] => []
  | b :: rest => hexDigit (b / 16) :: hexDigit (b % 16) :: bytesToHex rest

/-! ## JSON values -/

mutual

/-- JSON values (numbers restricted to integers). -/
inductive Json where
  | null
  | bool (b : Bool)
  | num (i : Int)
  | str (s : List Char)
  | arr (xs : JsonArr)
  | obj (fs : JsonObj)

/-- A sequence of JSON values. -/
inductive JsonArr where
  | nil
  | cons (hd : Json) (tl : JsonArr)

/-- A sequence of key-value pairs, in insertion order. -/
inductive JsonObj where
  | nil
  | cons (k : List Char) (v : Json) (tl : JsonObj)

end

deriving instance DecidableEq for Json, JsonArr, JsonObj

/-- Build a `JsonArr` from a list. -/
def jarrOfList : List Json → JsonArr
  | [] => .nil
  | j :: r => .cons j (jarrOfList r)

/-! ## JSON serialization (model of `JSON.stringify`) -/

/-- Decimal digit character. -/
def digitChar (n : Nat) : Char := hexDigit (n % 10)

/-- Decimal digits of a natural number (`fuel` bounds the recursion and is
sufficient whenever `n < fuel`). -/
def natDigits : Nat → Nat → List Char
  | 0, _ => []
  | fuel + 1, n =>
    if n < 10 then [digitChar n]
    else natDigits fuel (n / 10) ++ [digitChar (n % 10)]

/-- Decimal representation of a natural number. -/
def natToChars (n : Nat) : List Char := natDigits (n + 1) n

/-- Decimal representation of an integer (JS `Number` printing for
integral values). -/
def intToChars (i : Int) : List Char :=
  if i < 0 then '-' :: natToChars i.natAbs else natToChars i.natAbs

/-- JSON escape of one character, as produced by `JSON.stringify`. -/
def escChar (c : Char) : List Char :=
  if c = '"' then ['\\', '"']
  else if c = '\\' then ['\\', '\\']
  else if c = '\x08' then ['\\', 'b']
  else if c = '\x0c' then ['\\', 'f']
  else if c = '\n' then ['\\', 'n']
  else if c = '\r' then ['\\', 'r']
  else if c = '\t' then ['\\', 't']
  else if c.toNat < 32 then
    ['\\', 'u', '0', '0', hexDigit (c.toNat / 16), hexDigit (c.toNat % 16)]
  else [c]

/-- JSON escape of a string body. -/
def escBody : List Char → List Char
  | [] => []
  | c :: cs => escChar c ++ escBody cs

/-- A JSON string literal. -/
def escString (s : List Char) : List Char := '"' :: escBody s ++ ['"']

/-- Serialization modes: a value, the items of an array, or the members of
an object (`first` suppresses the leading comma). -/
inductive SerMode where
  | v (j : Json)
  | arrItems (xs : JsonArr) (first : Bool)
  | objItems (fs : JsonObj) (first : Bool)

/-- Fuel-indexed serializer.  The fuel strictly decreases on every recursive
call while the combined size of the remaining value strictly decreases as
well, so `fuel = sizeOf j` always suffices (see `stringifyJson`). -/
def serialize : Nat → SerMode → List Char
  | 0, _ => []
  | _ + 1, .v .null => "null".data
  | _ + 1, .v (.bool true) => "true".data
  | _ + 1, .v (.bool false) => "false".data
  | _ + 1, .v (.num i) => intToChars i
  | _ + 1, .v (.str s) => escString s
  | f + 1, .v (.arr xs) => '[' :: serialize f (.arrItems xs true) ++ [']']
  | f + 1, .v (.obj fs) => '\x7b' :: serialize f (.objItems fs true) ++ ['\x7d']
  | _ + 1, .arrItems .nil _ => []
  | f + 1, .arrItems (.cons hd tl) first =>
    (if first then [] else [',']) ++ serialize f (.v hd) ++
      serialize f (.arrItems tl false)
  | _ + 1, .objItems .nil _ => []
  | f + 1, .objItems (.cons k v tl) first =>
    (if first then [] else [',']) ++ escString k ++ ':' ::
      (serialize f (.v v) ++ serialize f (.objItems tl false))

mutual

/-- Structural size of a JSON value. -/
def jsizeV : Json → Nat
  | .null => 1
  | .bool _ => 1
  | .num _ => 1
  | .str _ => 1
  | .arr xs => 1 + jsizeA xs
  | .obj fs => 1 + jsizeO fs

/-- Structural size of a JSON array. -/
def jsizeA : JsonArr → Nat
  | .nil => 1
  | .cons hd tl => 1 + jsizeV hd + jsizeA tl

/-- Structural size of a JSON object. -/
def jsizeO : JsonObj → Nat
  | .nil => 1
  | .cons _ v tl => 1 + jsizeV v + jsizeO tl

end

/-- Model of `JSON.stringify`. -/
def stringifyJson (j : Json) : List Char := serialize (jsizeV j) (.v j)

/-! ## JSON parsing (model of `JSON.parse`) -/

/-- Skip JSON whitespace. -/
def skipWs : List Char → List Char
  | [] => []
  | c :: r =>
    if c = ' ' ∨ c = '\t' ∨ c = '\n' ∨ c = '\r' then skipWs r else c :: r

/-- Hexadecimal digit value. -/
def hexVal (c : Char) : Option Nat :=
  if 48 ≤ c.toNat ∧ c.toNat ≤ 57 then some (c.toNat - 48)
  else if 97 ≤ c.toNat ∧ c.toNat ≤ 102 then some (c.toNat - 87)
  else if 65 ≤ c.toNat ∧ c.toNat ≤ 70 then some (c.toNat - 55)
  else none

/-- Is `c` a decimal digit? -/
def isDigitChar (c : Char) : Bool :=
  decide (48 ≤ c.toNat) && decide (c.toNat ≤ 57)

/-- Does the input start with a decimal digit? -/
def digitHead : List Char → Bool
  | [] => false
  | c :: _ => isDigitChar c

/-- Consume a run of decimal digits, accumulating their value. -/
def parseDigits : List Char → Nat → Nat × List Char
  | [], acc => (acc, [])
  | c :: r, acc =>
    if isDigitChar c then parseDigits r (acc * 10 + (c.toNat - 48))
    else (acc, c :: r)

/-- Parse a JSON natural-number literal (no leading zeros). -/
def parseNatTok : List Char → Option (Nat × List Char)
  | [] => none
  | c :: r =>
    if c = '0' then if digitHead r then none else some (0, r)
    else if isDigitChar c then some (parseDigits r (c.toNat - 48))
    else none

/-- Parse a JSON integer literal (optional leading minus). -/
def parseNumTok : List Char → Option (Int × List Char)
  | [] => none
  | c :: r =>
    if c = '-' then (parseNatTok r).map (fun p => (-(p.1 : Int), p.2))
    else (parseNatTok (c :: r)).map (fun p => ((p.1 : Int), p.2))

/-- Consume an expected literal suffix. -/
def dropLit : List Char → List Char → Option (List Char)
  | [], l => some l
  | p :: ps, c :: l => if c = p then dropLit ps l else none
  | _ :: _, [] => none

/-- Parse the body of a JSON string literal (after the opening quote).
Surrogate `\uXXXX` escapes are modelled as failures: Lean characters cannot
represent lone surrogates, and the engine never produces such escapes. -/
def parseStrBody : List Char → Option (List Char × List Char)
  | [] => none
  | '"' :: r => some ([], r)
  | '\\' :: '"' :: r => (parseStrBody r).map (fun p => ('"' :: p.1, p.2))
  | '\\' :: '\\' :: r => (parseStrBody r).map (fun p => ('\\' :: p.1, p.2))
  | '\\' :: '/' :: r => (parseStrBody r).map (fun p => ('/' :: p.1, p.2))
  | '\\' :: 'b' :: r => (parseStrBody r).map (fun p => ('\x08' :: p.1, p.2))
  | '\\' :: 'f' :: r => (parseStrBody r).map (fun p => ('\x0c' :: p.1, p.2))
  | '\\' :: 'n' :: r => (parseStrBody r).map (fun p => ('\n' :: p.1, p.2))
  | '\\' :: 'r' :: r => (parseStrBody r).map (fun p => ('\r' :: p.1, p.2))
  | '\\' :: 't' :: r => (parseStrBody r).map (fun p => ('\t' :: p.1, p.2))
  | '\\' :: 'u' :: h1 :: h2 :: h3 :: h4 :: r =>
    (hexVal h1).bind fun d1 =>
      (hexVal h2).bind fun d2 =>
        (hexVal h3).bind fun d3 =>
          (hexVal h4).bind fun d4 =>
            if 55296 ≤ d1 * 4096 + d2 * 256 + d3 * 16 + d4 ∧
                d1 * 4096 + d2 * 256 + d3 * 16 + d4 < 57344 then none
            else
              (parseStrBody r).map
                (fun p =>
                  (Char.ofNat (d1 * 4096 + d2 * 256 + d3 * 16 + d4) :: p.1, p.2))
  | '\\' :: _ => none
  | c :: r =>
    if c.toNat < 32 then none
    else (parseStrBody r).map (fun p => (c :: p.1, p.2))

/-- Extend an array parse result with a new leading item. -/
def consArr (v : Json) (t : Json × List Char) : Option (Json × List Char) :=
  match t.1 with
  | .arr xs => some (.arr (.cons v xs), t.2)
  | _ => none

/-- Extend an object parse result with a new leading member. -/
def consObj (k : List Char) (v : Json) (t : Json × List Char) :
    Option (Json × List Char) :=
  match t.1 with
  | .obj fs => some (.obj (.cons k v fs), t.2)
  | _ => none

/-- Expect a colon (after optional whitespace). -/
def expectColon (l : List Char) : Option (List Char) :=
  match skipWs l with
  | c :: r => if c = ':' then some r else none
  | [] => none

/-- Parser modes. -/
inductive ParseMode where
  | value
  | arrFirst
  | arrRest
  | objFirst
  | objPair
  | objRest

/-- Fuel-indexed recursive-descent JSON parser.  The fuel decreases on every
recursive call and at least one input character is consumed between
successive calls, so `fuel = input length + 1` always suffices (see
`parseJson`).  Fractional and exponent number literals are modelled as
failures; the overall parse then fails just as `JSON.parse` throws. -/
def parseP : Nat → ParseMode → List Char → Option (Json × List Char)
  | 0, _, _ => none
  | f + 1, .value, l =>
    match skipWs l with
    | [] => none
    | c :: r =>
      if c = '"' then (parseStrBody r).map (fun p => (Json.str p.1, p.2))
      else if c = '\x7b' then parseP f .objFirst r
      else if c = '[' then parseP f .arrFirst r
      else if c = 't' then (dropLit "rue".data r).map (fun r2 => (Json.bool true, r2))
      else if c = 'f' then (dropLit "alse".data r).map (fun r2 => (Json.bool false, r2))
      else if c = 'n' then (dropLit "ull".data r).map (fun r2 => (Json.null, r2))
      else (parseNumTok (c :: r)).map (fun p => (Json.num p.1, p.2))
  | f + 1, .arrFirst, l =>
    match skipWs l with
    | [] => none
    | c :: r =>
      if c = ']' then some (.arr .nil, r)
      else
        (parseP f .value (c :: r)).bind fun vp =>
          (parseP f .arrRest vp.2).bind fun tp => consArr vp.1 tp
  | f + 1, .arrRest, l =>
    match skipWs l with
    | [] => none
    | c :: r =>
      if c = ']' then some (.arr .nil, r)
      else if c = ',' then
        (parseP f .value r).bind fun vp =>
          (parseP f .arrRest vp.2).bind fun tp => consArr vp.1 tp
      else none
  | f + 1, .objFirst, l =>
    match skipWs l with
    | [] => none
    | c :: r =>
      if c = '\x7d' then some (.obj .nil, r)
      else parseP f .objPair (c :: r)
  | f + 1, .objPair, l =>
    match skipWs l with
    | [] => none
    | c :: r =>
      if c = '"' then
        (parseStrBody r).bind fun kp =>
          (expectColon kp.2).bind fun r2 =>
            (parseP f .value r2).bind fun vp =>
              (parseP f .objRest vp.2).bind fun tp => consObj kp.1 vp.1 tp
      else none
  | f + 1, .objRest, l =>
    match skipWs l with
    | [] => none
    | c :: r =>
      if c = '\x7d' then some (.obj .nil, r)
      else if c = ',' then parseP f .objPair r
      else none

/-- Model of `JSON.parse`. -/
def parseJson (s : List Char) : Option Json :=
  (parseP (s.length + 1) .value s).bind fun p =>
    if skipWs p.2 = [] then some p.1 else none

/-! ## Nostr events and serialization of signed events -/

/-- A signed Nostr event: the template fields plus `pubkey` and `sig`
added by the external signer. -/
structure NostrEvent where
  kind : Int
  tags : List (List (List Char))
  created_at : Int
  content : List Char
  pubkey : List Char
  sig : List Char
deriving DecidableEq

/-- An unsigned event template, as built by `getToken`. -/
structure NostrEventTemplate where
  kind : Int
  tags : List (List (List Char))
  created_at : Int
  content : List Char
deriving DecidableEq

/-- Comma-separated concatenation. -/
def commaSep : List (List Char) → List Char
  | [] => []
  | [x] => x
  | x :: y :: r => x ++ ',' :: commaSep (y :: r)

/-- Serialization of one tag (an array of strings). -/
def stringifyTag (t : List (List Char)) : List Char :=
  '[' :: commaSep (t.map escString) ++ [']']

/-- Serialization of the tag list. -/
def stringifyTags (tags : List (List (List Char))) : List Char :=
  '[' :: commaSep (tags.map stringifyTag) ++ [']']

/-- Model of `JSON.stringify(signedEvent)`: the JSON text of a signed event,
with keys in the insertion order of the engine's template (`kind`, `tags`,
`created_at`, `content`) followed by the signer-added `pubkey` and `sig`.
Key order does not affect any validation result. -/
def stringifyEvent (e : NostrEvent) : List Char :=
  '\x7b' :: (escString "kind".data ++ ':' :: intToChars e.kind ++
    ',' :: escString "tags".data ++ ':' :: stringifyTags e.tags ++
    ',' :: escString "created_at".data ++ ':' :: intToChars e.created_at ++
    ',' :: escString "content".data ++ ':' :: escString e.content ++
    ',' :: escString "pubkey".data ++ ':' :: escString e.pubkey ++
    ',' :: escString "sig".data ++ ':' :: escString e.sig) ++ ['\x7d']

/-- The JSON value a parser recovers from `stringifyEvent e`. -/
def eventToJson (e : NostrEvent) : Json :=
  .obj (.cons "kind".data (.num e.kind)
    (.cons "tags".data
      (.arr (jarrOfList (e.tags.map fun t => .arr (jarrOfList (t.map Json.str)))))
      (.cons "created_at".data (.num e.created_at)
        (.cons "content".data (.str e.content)
          (.cons "pubkey".data (.str e.pubkey)
            (.cons "sig".data (.str e.sig) .nil))))))

/-! ## Decoding a parsed JSON value into an event
(models `isValidNostrEvent` plus the JS field accesses) -/

/-- JS property lookup on a parsed JSON object (duplicate keys: last wins,
as in `JSON.parse`). -/
def lookupLast : JsonObj → List Char → Option Json
  | .nil, _ => none
  | .cons k v tl, key =>
    match lookupLast tl key with
    | some r => some r
    | none => if k = key then some v else none

/-- Extract a list of strings from a JSON array, if all items are strings. -/
def strListOfJson : JsonArr → Option (List (List Char))
  | .nil => some []
  | .cons (.str s) tl => (strListOfJson tl).map (fun r => s :: r)
  | .cons _ _ => none

/-- Extract the tag matrix from a JSON array, if all items are arrays of
strings. -/
def tagsOfJson : JsonArr → Option (List (List (List Char)))
  | .nil => some []
  | .cons (.arr t) tl =>
    (strListOfJson t).bind fun strs => (tagsOfJson tl).map (fun r => strs :: r)
  | .cons _ _ => none

/-- A string field, or the empty string when absent (the engine never reads
`pubkey`/`sig` during validation). -/
def strFieldOr (fs : JsonObj) (key : List Char) : List Char :=
  match lookupLast fs key with
  | some (.str s) => s
  | _ => []

/-- Model of `isValidNostrEvent` followed by the cast to `NostrEvent`:
requires a JSON object with a numeric `kind`, numeric `created_at`, string
`content` and a `tags` array whose entries are arrays of strings. -/
def eventFromJson (j : Json) : Option NostrEvent :=
  match j with
  | .obj fs =>
    match lookupLast fs "kind".data, lookupLast fs "created_at".data,
        lookupLast fs "content".data, lookupLast fs "tags".data with
    | some (.num k), some (.num t), some (.str c), some (.arr xs) =>
      (tagsOfJson xs).map fun tags =>
        { kind := k, created_at := t, content := c, tags := tags,
          pubkey := strFieldOr fs "pubkey".data, sig := strFieldOr fs "sig".data }
    | _, _, _, _ => none
  | _ => none

/-! ## The NIP-98 auth engine (`Nip98AuthService`) -/

/-- The NIP-98 event kind (`HTTPAuth`). -/
def HTTPAuthKind : Int := 27235

/-- The `authorizationScheme` prefix. -/
def schemeChars : List Char := "Nostr ".data

/-- Model of `hashPayload`: hex of SHA-256 of the UTF-8 bytes of the JSON
serialization of the payload. -/
def hashPayload (payload : Json) : List Char :=
  bytesToHex (sha256 (utf8Encode (stringifyJson payload)))

/-- Model of `tags.find(t => t[0] === key)` (an empty tag entry never
matches, since `t[0]` is `undefined`). -/
def findTag (tags : List (List (List Char))) (key : List Char) :
    Option (List (List Char)) :=
  tags.find? (fun t => decide (t.head? = some key))

/-- Model of JS `String.prototype.replace` with a plain-string pattern:
replace the first occurrence, if any. -/
def replaceFirst (s pat repl : List Char) : List Char :=
  if pat.isPrefixOf s then repl ++ s.drop pat.length
  else
    match s with
    | [] => []
    | c :: r => c :: replaceFirst r pat repl

/-- Does `pat` occur as a contiguous substring of `s`? -/
def occursIn (s pat : List Char) : Bool :=
  pat.isPrefixOf s ||
    match s with
    | [] => false
    | _ :: r => occursIn r pat

/-- Error messages of the engine. -/
def msgMissingToken : List Char := "Missing token".data

/-- Collapsed unpack-failure message (`Failed to unpack token: ...`); the
cause suffix is irrelevant to every claim. -/
def msgUnpack : List Char := "Failed to unpack token".data

def msgInvalidKind : List Char := "Invalid event kind for NIP-98".data

def msgTimestampOld : List Char :=
  "Event timestamp is too old (must be within 60 seconds)".data

def msgUrlMismatch : List Char := "Event URL tag does not match request URL".data

def msgMethodMismatch : List Char :=
  "Event method tag does not match request method".data

def msgPayloadMismatch : List Char :=
  "Event payload tag does not match request body hash".data

/-- Structural validation and cast of the parsed JSON value
(final stage of `unpackEventFromToken`). -/
def unpackStage3 (j : Json) : Except (List Char) NostrEvent :=
  match eventFromJson j with
  | none => .error msgUnpack
  | some e => .ok e

/-- Format check and JSON parse of the decoded text
(models `!eventB64 || eventB64.length === 0 || !eventB64.startsWith('\x7b')`
followed by `JSON.parse`). -/
def unpackStage2 (s : List Char) : Except (List Char) NostrEvent :=
  if s.head? ≠ some '\x7b' then .error msgUnpack
  else
    match parseJson s with
    | none => .error msgUnpack
    | some j => unpackStage3 j

/-- UTF-8 decoding of the base64-decoded bytes
(models `textDecoder.decode`). -/
def unpackStage1 (bytes : List Nat) : Except (List Char) NostrEvent :=
  match utf8Decode bytes with
  | none => .error msgUnpack
  | some s => unpackStage2 s

/-- Model of `unpackEventFromToken`: reject an empty token, strip the first
occurrence of the scheme label, base64-decode, then decode and parse. -/
def unpackEventFromToken (token : List Char) : Except (List Char) NostrEvent :=
  if token = [] then .error msgMissingToken
  else
    match b64Decode (replaceFirst token schemeChars []) with
    | none => .error msgUnpack
    | some bytes => unpackStage1 bytes

/-- Model of `validateEventKind`. -/
def validateEventKind (e : NostrEvent) : Bool := decide (e.kind = HTTPAuthKind)

/-- Model of `validateEventTimestamp`.  `!event.created_at` is the JS falsy
test, true exactly when `created_at` is `0` (for integer timestamps). -/
def validateEventTimestamp (now : Int) (e : NostrEvent) : Bool :=
  if e.created_at = 0 then false
  else decide (now - e.created_at < 60)

/-- Model of `validateEventUrlTag`. -/
def validateEventUrlTag (e : NostrEvent) (url : List Char) : Bool :=
  match findTag e.tags "u".data with
  | none => false
  | some t => if t.length < 2 then false else decide (t.getD 1 [] = url)

/-- Model of `validateEventMethodTag` (case-insensitive comparison). -/
def validateEventMethodTag (e : NostrEvent) (method : List Char) : Bool :=
  match findTag e.tags "method".data with
  | none => false
  | some t =>
    if t.length < 2 then false
    else decide (asciiLower (t.getD 1 []) = asciiLower method)

/-- Model of `validateEventPayloadTag`. -/
def validateEventPayloadTag (e : NostrEvent) (payload : Json) : Bool :=
  match findTag e.tags "payload".data with
  | none => false
  | some t =>
    if t.length < 2 then false else decide (t.getD 1 [] = hashPayload payload)

/-- Is a payload-bearing body present?  Models the JS test
`body && typeof body === 'object' && Object.keys(body).length > 0`
(`null`, primitives and empty objects/arrays do not trigger the check). -/
def requiresPayloadCheckVal : Json → Bool
  | .obj (.cons _ _ _) => true
  | .arr (.cons _ _) => true
  | _ => false

/-- The same test on an optional body. -/
def requiresPayloadCheck : Option Json → Bool
  | some b => requiresPayloadCheckVal b
  | none => false

/-- Model of `validateEvent`: the check sequence with its thrown messages. -/
def validateEvent (now : Int) (e : NostrEvent) (url method : List Char)
    (body : Option Json) : Except (List Char) Bool :=
  if validateEventKind e = false then .error msgInvalidKind
  else if validateEventTimestamp now e = false then .error msgTimestampOld
  else if validateEventUrlTag e url = false then .error msgUrlMismatch
  else if validateEventMethodTag e method = false then .error msgMethodMismatch
  else
    match body with
    | some b =>
      if requiresPayloadCheckVal b then
        if validateEventPayloadTag e b = false then .error msgPayloadMismatch
        else .ok true
      else .ok true
    | none => .ok true

/-- Model of `validateToken`: unpack, validate, and map any thrown error
to `false`. -/
def validateToken (now : Int) (token url method : List Char)
    (body : Option Json) : Bool :=
  match unpackEventFromToken token with
  | .error _ => false
  | .ok e =>
    match validateEvent now e url method body with
    | .error _ => false
    | .ok b => b

/-! ## The signer session (`NostrExtensionService`) -/

/-- The reactive authentication state. -/
structure AuthState where
  isAuthenticated : Bool
  pubkey : Option (List Char)
  extensionName : Option (List Char)
deriving DecidableEq

/-- Initial state of the `BehaviorSubject`. -/
def initialAuthState : AuthState :=
  { isAuthenticated := false, pubkey := none, extensionName := none }

/-- The operations that mutate the authentication state.  `detect` models
`detectExtensions` (run in the constructor when an extension is found);
`connectOk`/`connectFail` model `connect` with the extension accepting or
rejecting `getPublicKey`; `disconnect` models `disconnect`.  Each
`updateAuthState` call spreads the previous state, so fields not listed in
the call are preserved. -/
inductive SignerOp where
  | detect (name : List Char)
  | connectOk (pk : List Char) (name : Option (List Char))
  | connectFail
  | disconnect (name : Option (List Char))
deriving DecidableEq

/-- One state transition. -/
def stepAuth (st : AuthState) : SignerOp → AuthState
  | .detect name =>
    { st with isAuthenticated := false, extensionName := some name }
  | .connectOk pk name =>
    { isAuthenticated := true, pubkey := some pk, extensionName := name }
  | .connectFail => st
  | .disconnect name =>
    { st with isAuthenticated := false, extensionName := name }

/-- The state reached from the initial state by a sequence of operations. -/
def runAuth (ops : List SignerOp) : AuthState :=
  ops.foldl stepAuth initialAuthState

def msgNoExtension : List Char := "No Nostr extension available".data

def msgNotConnected : List Char :=
  "Not connected to Nostr extension. Please connect first.".data

/-- Model of `NostrExtensionService.signEvent`, with the external signing
capability passed explicitly as `cap`. -/
def signEventS (extAvailable : Bool) (st : AuthState)
    (cap : NostrEventTemplate → Except (List Char) NostrEvent)
    (e : NostrEventTemplate) : Except (List Char) NostrEvent :=
  if extAvailable = false then .error msgNoExtension
  else if st.isAuthenticated = false then .error msgNotConnected
  else
    match cap e with
    | .ok se => .ok se
    | .error err => .error ("Failed to sign event: ".data ++ err)

/-! ## Token generation (`getToken`) -/

def msgNoExtensionForSigning : List Char :=
  "No Nostr extension available for signing".data

/-- The event template built by `getToken`. -/
def buildTemplate (loginUrl httpMethod : List Char) (payload : Option Json)
    (now : Int) : NostrEventTemplate :=
  { kind := HTTPAuthKind,
    tags := [["u".data, loginUrl], ["method".data, asciiUpper httpMethod]] ++
      (match payload with
       | some p => [["payload".data, hashPayload p]]
       | none => []),
    created_at := now,
    content := [] }

/-- Model of `getToken`.  `now` is the clock reading
`Math.round(Date.now() / 1000)`; the external signer is `cap`. -/
def getToken (extAvailable : Bool) (st : AuthState)
    (cap : NostrEventTemplate → Except (List Char) NostrEvent)
    (loginUrl httpMethod : List Char) (includeAuthorizationScheme : Bool)
    (payload : Option Json) (now : Int) : Except (List Char) (List Char) :=
  if extAvailable = false then .error msgNoExtensionForSigning
  else if st.isAuthenticated = false then .error msgNotConnected
  else
    match signEventS extAvailable st cap
        (buildTemplate loginUrl httpMethod payload now) with
    | .error e => .error ("Failed to generate NIP-98 token: ".data ++ e)
    | .ok signedEvent =>
      .ok ((if includeAuthorizationScheme then schemeChars else []) ++
        b64Encode (utf8Encode (stringifyEvent signedEvent)))

def c1Url : List Char := "https://api.example.com/a".data

def c1Method : List Char := "get".data

def c1Cap : NostrEventTemplate → Except (List Char) NostrEvent :=
  fun t => .ok ⟨t.kind, t.tags, t.created_at, t.content, "aa".data, "bb".data⟩

def c1St : AuthState := ⟨true, some "aa".data, some "nos2x".data⟩

def c1Ev : NostrEvent :=
  ⟨27235, [["u".data, c1Url], ["method".data, asciiUpper c1Method]],
    1700000000, [], "aa".data, "bb".data⟩

def c1Token : List Char := b64Encode (utf8Encode (stringifyEvent c1Ev))

/-! ## The concrete PATCH scenario -/

/-- The payload `\x7b"tier":"premium"\x7d`. -/
def tierPremium : Json := .obj (.cons "tier".data (.str "premium".data) .nil)

/-- The payload `\x7b"tier":"free"\x7d`. -/
def tierFree : Json := .obj (.cons "tier".data (.str "free".data) .nil)

def c5Url : List Char := "https://api.example.com/settings/abc123".data

def c5Cap : NostrEventTemplate → Except (List Char) NostrEvent :=
  fun t => .ok ⟨t.kind, t.tags, t.created_at, t.content,
    "ab12".data, "cd34".data⟩

def c5St : AuthState := ⟨true, some "ab12".data, none⟩

/-- The signed event produced in the scenario. -/
def c5Ev : NostrEvent :=
  ⟨27235,
    [["u".data, c5Url], ["method".data, "PATCH".data],
     ["payload".data, hashPayload tierPremium]],
    1700000000, [], "ab12".data, "cd34".data⟩

/-- The token produced in the scenario. -/
def c5Token : List Char := b64Encode (utf8Encode (stringifyEvent c5Ev))

/-! ## Theorems -/

theorem charToNat_ofNat_valid (n : Nat) (h : n.isValidChar) :
    (Char.ofNat n).toNat = n := by
  rw [Char.ofNat, dif_pos h]
  rfl

theorem char_toNat_valid (c : Char) :
    c.toNat < 55296 ∨ (57343 < c.toNat ∧ c.toNat < 1114112) := c.valid

/-- Lowering after uppering agrees with plain lowering (ASCII case maps). -/
theorem toLower_toUpper (c : Char) : c.toUpper.toLower = c.toLower := by
  rw [Char.toUpper]
  by_cases h : c.toNat ≥ 97 ∧ c.toNat ≤ 122
  · rw [if_pos h]
    have hv : (c.toNat - 32).isValidChar := by
      left; omega
    have ht : (Char.ofNat (c.toNat - 32)).toNat = c.toNat - 32 :=
      charToNat_ofNat_valid _ hv
    rw [Char.toLower, Char.toLower]
    have h1 : (Char.ofNat (c.toNat - 32)).toNat ≥ 65 ∧
        (Char.ofNat (c.toNat - 32)).toNat ≤ 90 := by omega
    rw [if_pos h1, if_neg (by omega)]
    have : (Char.ofNat (c.toNat - 32)).toNat + 32 = c.toNat := by omega
    rw [this, Char.ofNat_toNat]
  · rw [if_neg h]

theorem asciiLower_asciiUpper (s : List Char) :
    asciiLower (asciiUpper s) = asciiLower s := by
  induction s with
  | nil => rfl
  | cons c cs ih =>
    simp only [asciiLower, asciiUpper, List.map_cons] at *
    rw [toLower_toUpper]
    exact congrArg _ (by simpa [asciiLower, asciiUpper] using ih)

theorem utf8EncodeChar_ne_nil (c : Char) : utf8EncodeChar c ≠ [] := by
  unfold utf8EncodeChar
  split_ifs <;> simp

theorem utf8EncodeChar_lt_256 (c : Char) : ∀ b ∈ utf8EncodeChar c, b < 256 := by
  have hv := char_toNat_valid c
  unfold utf8EncodeChar
  split_ifs with h1 h2 h3 <;> intro b hb <;> simp at hb <;> omega

theorem utf8Encode_lt_256 (s : List Char) : ∀ b ∈ utf8Encode s, b < 256 := by
  induction s with
  | nil => intro b hb; simp [utf8Encode] at hb
  | cons c cs ih =>
    intro b hb
    rw [utf8Encode] at hb
    rcases List.mem_append.mp hb with h | h
    · exact utf8EncodeChar_lt_256 c b h
    · exact ih b h

theorem byteClass_ascii (b : Nat) (h : b < 128) : byteClass b = .ascii := by
  unfold byteClass
  rw [if_pos h]

theorem byteClass_two (b : Nat) (h1 : 192 ≤ b) (h2 : b < 224) :
    byteClass b = .two := by
  unfold byteClass
  rw [if_neg (by omega), if_neg (by omega), if_pos h2]

theorem byteClass_three (b : Nat) (h1 : 224 ≤ b) (h2 : b < 240) :
    byteClass b = .three := by
  unfold byteClass
  rw [if_neg (by omega), if_neg (by omega), if_neg (by omega), if_pos h2]

theorem byteClass_four (b : Nat) (h1 : 240 ≤ b) (h2 : b < 248) :
    byteClass b = .four := by
  unfold byteClass
  rw [if_neg (by omega), if_neg (by omega), if_neg (by omega),
      if_neg (by omega), if_pos h2]

theorem utf8Decode_encodeChar (c : Char) (bs : List Nat) :
    utf8Decode (utf8EncodeChar c ++ bs) =
      (utf8Decode bs).map (fun cs => c :: cs) := by
  have hv := char_toNat_valid c
  unfold utf8EncodeChar
  split_ifs with h1 h2 h3
  · -- 1-byte
    simp only [List.cons_append, List.nil_append]
    rw [utf8Decode.eq_2 _ _ (byteClass_ascii _ h1), Char.ofNat_toNat]
  · -- 2-byte
    simp only [List.cons_append, List.nil_append]
    rw [utf8Decode.eq_3 _ _ _ (byteClass_two _ (by omega) (by omega))]
    have hc : (contByte (128 + c.toNat % 64) &&
        decide (128 ≤ (192 + c.toNat / 64 - 192) * 64 + (128 + c.toNat % 64 - 128)))
        = true := by
      simp only [contByte, Bool.and_eq_true, decide_eq_true_eq]
      omega
    rw [if_pos hc]
    have harith : (192 + c.toNat / 64 - 192) * 64 + (128 + c.toNat % 64 - 128)
        = c.toNat := by omega
    rw [harith, Char.ofNat_toNat]
  · -- 3-byte
    simp only [List.cons_append, List.nil_append]
    rw [utf8Decode.eq_4 _ _ _ _ (byteClass_three _ (by omega) (by omega))]
    have harith : (224 + c.toNat / 4096 - 224) * 4096 +
        (128 + c.toNat / 64 % 64 - 128) * 64 + (128 + c.toNat % 64 - 128)
        = c.toNat := by omega
    rw [harith]
    have hc : (contByte (128 + c.toNat / 64 % 64) && contByte (128 + c.toNat % 64) &&
        decide (2048 ≤ c.toNat) &&
        !(decide (55296 ≤ c.toNat) && decide (c.toNat < 57344))) = true := by
      simp only [contByte, Bool.and_eq_true, Bool.not_eq_true',
        Bool.and_eq_false_iff, decide_eq_true_eq, decide_eq_false_iff_not]
      omega
    rw [if_pos hc, Char.ofNat_toNat]
  · -- 4-byte
    simp only [List.cons_append, List.nil_append]
    rw [utf8Decode.eq_5 _ _ _ _ _ (byteClass_four _ (by omega) (by omega))]
    have harith : (240 + c.toNat / 262144 - 240) * 262144 +
        (128 + c.toNat / 4096 % 64 - 128) * 4096 +
        (128 + c.toNat / 64 % 64 - 128) * 64 + (128 + c.toNat % 64 - 128)
        = c.toNat := by omega
    rw [harith]
    have hc : (contByte (128 + c.toNat / 4096 % 64) &&
        contByte (128 + c.toNat / 64 % 64) && contByte (128 + c.toNat % 64) &&
        decide (65536 ≤ c.toNat) && decide (c.toNat < 1114112)) = true := by
      simp only [contByte, Bool.and_eq_true, decide_eq_true_eq]
      omega
    rw [if_pos hc, Char.ofNat_toNat]

theorem utf8Decode_utf8Encode (s : List Char) :
    utf8Decode (utf8Encode s) = some s := by
  induction s with
  | nil => rfl
  | cons c cs ih =>
    rw [utf8Encode, utf8Decode_encodeChar, ih, Option.map_some']

theorem b64Value_b64Char (n : Nat) (h : n < 64) : b64Value (b64Char n) = some n := by
  revert h
  revert n
  decide

theorem b64Char_ne_of_ne (n : Nat) (c : Char) (hc : c ∉ b64Alphabet) (hd : c ≠ 'A') :
    b64Char n ≠ c := by
  by_cases h : n < b64Alphabet.length
  · intro he
    rw [b64Char, List.getD_eq_getElem b64Alphabet 'A' h] at he
    exact hc (he ▸ List.getElem_mem h)
  · rw [b64Char, List.getD_eq_default _ _ (by omega)]
    exact fun he => hd he.symm

theorem b64Char_ne_eq_sign (n : Nat) : b64Char n ≠ '=' :=
  b64Char_ne_of_ne n '=' (by decide) (by decide)

theorem b64Char_ne_space (n : Nat) : b64Char n ≠ ' ' :=
  b64Char_ne_of_ne n ' ' (by decide) (by decide)

theorem b64Decode_b64Encode (bs : List Nat) (h : ∀ b ∈ bs, b < 256) :
    b64Decode (b64Encode bs) = some bs := by
  induction bs using b64Encode.induct with
  | case1 => rfl
  | case2 a =>
    have ha : a < 256 := h a (by simp)
    have h0 : b64Value (b64Char (a / 4)) = some (a / 4) :=
      b64Value_b64Char _ (by omega)
    have h1 : b64Value (b64Char (a % 4 * 16)) = some (a % 4 * 16) :=
      b64Value_b64Char _ (by omega)
    simp only [b64Encode, b64Decode, h0, h1, Option.some_bind]
    simp only [and_self, if_true]
    rw [if_pos (show a % 4 * 16 % 16 = 0 by omega)]
    have harith : a / 4 * 4 + a % 4 * 16 / 16 = a := by omega
    rw [harith]
  | case3 a b =>
    have ha : a < 256 := h a (by simp)
    have hb : b < 256 := h b (by simp)
    have h0 : b64Value (b64Char (a / 4)) = some (a / 4) :=
      b64Value_b64Char _ (by omega)
    have h1 : b64Value (b64Char (a % 4 * 16 + b / 16)) =
        some (a % 4 * 16 + b / 16) := b64Value_b64Char _ (by omega)
    have h2 : b64Value (b64Char (b % 16 * 4)) = some (b % 16 * 4) :=
      b64Value_b64Char _ (by omega)
    simp only [b64Encode, b64Decode, h0, h1, h2, Option.some_bind]
    rw [if_neg (b64Char_ne_eq_sign _)]
    simp only [if_true]
    rw [if_pos (show b % 16 * 4 % 4 = 0 by omega)]
    have e1 : a / 4 * 4 + (a % 4 * 16 + b / 16) / 16 = a := by omega
    have e2 : (a % 4 * 16 + b / 16) % 16 * 16 + b % 16 * 4 / 4 = b := by omega
    rw [e1, e2]
  | case4 a b c rest ih =>
    have ha : a < 256 := h a (by simp)
    have hb : b < 256 := h b (by simp)
    have hc : c < 256 := h c (by simp)
    have hrest : ∀ x ∈ rest, x < 256 := fun x hx => h x (by simp [hx])
    have h0 : b64Value (b64Char (a / 4)) = some (a / 4) :=
      b64Value_b64Char _ (by omega)
    have h1 : b64Value (b64Char (a % 4 * 16 + b / 16)) =
        some (a % 4 * 16 + b / 16) := b64Value_b64Char _ (by omega)
    have h2 : b64Value (b64Char (b % 16 * 4 + c / 64)) =
        some (b % 16 * 4 + c / 64) := b64Value_b64Char _ (by omega)
    have h3 : b64Value (b64Char (c % 64)) = some (c % 64) :=
      b64Value_b64Char _ (by omega)
    simp only [b64Encode, b64Decode, h0, h1, h2, h3, Option.some_bind]
    rw [if_neg (b64Char_ne_eq_sign _), if_neg (b64Char_ne_eq_sign _),
        ih hrest, Option.map_some']
    have e1 : a / 4 * 4 + (a % 4 * 16 + b / 16) / 16 = a := by omega
    have e2 : (a % 4 * 16 + b / 16) % 16 * 16 + (b % 16 * 4 + c / 64) / 4 = b := by
      omega
    have e3 : (b % 16 * 4 + c / 64) % 4 * 64 + c % 64 = c := by omega
    rw [e1, e2, e3]

set_option maxRecDepth 10000 in
example :
    bytesToHex (sha256 (utf8Encode "abc".data)) =
      "ba7816bf8f01cfea414140de5dae2223b00361a396177a9cb410ff61f20015ad".data := by
  decide

/-! ## Parser/serializer agreement: string and number tokens -/

theorem hexVal_hexDigit (d : Nat) (h : d < 16) : hexVal (hexDigit d) = some d := by
  revert h
  revert d
  decide

set_option maxHeartbeats 4000000 in
theorem parseStrBody_plain (c : Char) (r : List Char)
    (h1 : c ≠ '"') (h2 : c ≠ '\\') (h3 : ¬ c.toNat < 32) :
    parseStrBody (c :: r) = (parseStrBody r).map (fun p => (c :: p.1, p.2)) := by
  rw [parseStrBody.eq_13 c r (fun he => h1 he)
    (fun _ he _ => h2 he) (fun _ he _ => h2 he) (fun _ he _ => h2 he)
    (fun _ he _ => h2 he) (fun _ he _ => h2 he) (fun _ he _ => h2 he)
    (fun _ he _ => h2 he) (fun _ he _ => h2 he)
    (fun _ _ _ _ _ he _ => h2 he) (fun he => h2 he)]
  rw [if_neg h3]

theorem charNe_of_toNat_ne (c d : Char) (h : c.toNat ≠ d.toNat) : c ≠ d :=
  fun he => h (he ▸ rfl)

theorem parseStrBody_escBody (s : List Char) (rest : List Char) :
    parseStrBody (escBody s ++ '"' :: rest) = some (s, rest) := by
  induction s with
  | nil => rfl
  | cons c cs ih =>
    rw [escBody, List.append_assoc]
    unfold escChar
    split_ifs with e1 e2 e3 e4 e5 e6 e7 e8
    · subst e1
      show parseStrBody ('\\' :: '"' :: (escBody cs ++ '"' :: rest)) = _
      rw [show ∀ l, parseStrBody ('\\' :: '"' :: l) =
          (parseStrBody l).map (fun p => ('"' :: p.1, p.2)) from fun l => rfl]
      rw [ih, Option.map_some']
    · subst e2
      show parseStrBody ('\\' :: '\\' :: (escBody cs ++ '"' :: rest)) = _
      rw [show ∀ l, parseStrBody ('\\' :: '\\' :: l) =
          (parseStrBody l).map (fun p => ('\\' :: p.1, p.2)) from fun l => rfl]
      rw [ih, Option.map_some']
    · subst e3
      show parseStrBody ('\\' :: 'b' :: (escBody cs ++ '"' :: rest)) = _
      rw [show ∀ l, parseStrBody ('\\' :: 'b' :: l) =
          (parseStrBody l).map (fun p => ('\x08' :: p.1, p.2)) from fun l => rfl]
      rw [ih, Option.map_some']
    · subst e4
      show parseStrBody ('\\' :: 'f' :: (escBody cs ++ '"' :: rest)) = _
      rw [show ∀ l, parseStrBody ('\\' :: 'f' :: l) =
          (parseStrBody l).map (fun p => ('\x0c' :: p.1, p.2)) from fun l => rfl]
      rw [ih, Option.map_some']
    · subst e5
      show parseStrBody ('\\' :: 'n' :: (escBody cs ++ '"' :: rest)) = _
      rw [show ∀ l, parseStrBody ('\\' :: 'n' :: l) =
          (parseStrBody l).map (fun p => ('\n' :: p.1, p.2)) from fun l => rfl]
      rw [ih, Option.map_some']
    · subst e6
      show parseStrBody ('\\' :: 'r' :: (escBody cs ++ '"' :: rest)) = _
      rw [show ∀ l, parseStrBody ('\\' :: 'r' :: l) =
          (parseStrBody l).map (fun p => ('\r' :: p.1, p.2)) from fun l => rfl]
      rw [ih, Option.map_some']
    · subst e7
      show parseStrBody ('\\' :: 't' :: (escBody cs ++ '"' :: rest)) = _
      rw [show ∀ l, parseStrBody ('\\' :: 't' :: l) =
          (parseStrBody l).map (fun p => ('\t' :: p.1, p.2)) from fun l => rfl]
      rw [ih, Option.map_some']
    · -- control character, \u00XX escape
      show parseStrBody ('\\' :: 'u' :: '0' :: '0' ::
        hexDigit (c.toNat / 16) :: hexDigit (c.toNat % 16) ::
        (escBody cs ++ '"' :: rest)) = _
      rw [show ∀ h1 h2 h3 h4 l, parseStrBody ('\\' :: 'u' :: h1 :: h2 :: h3 :: h4 :: l) =
          (hexVal h1).bind (fun d1 =>
            (hexVal h2).bind fun d2 =>
              (hexVal h3).bind fun d3 =>
                (hexVal h4).bind fun d4 =>
                  if 55296 ≤ d1 * 4096 + d2 * 256 + d3 * 16 + d4 ∧
                      d1 * 4096 + d2 * 256 + d3 * 16 + d4 < 57344 then none
                  else
                    (parseStrBody l).map
                      (fun p => (Char.ofNat (d1 * 4096 + d2 * 256 + d3 * 16 + d4)
                        :: p.1, p.2))) from fun _ _ _ _ _ => rfl]
      rw [show hexVal '0' = some 0 from rfl]
      rw [hexVal_hexDigit _ (by omega), hexVal_hexDigit _ (by omega)]
      simp only [Option.some_bind]
      rw [if_neg (by omega)]
      have harith : 0 * 4096 + 0 * 256 + c.toNat / 16 * 16 + c.toNat % 16 = c.toNat := by
        omega
      rw [harith, Char.ofNat_toNat, ih, Option.map_some']
    · -- plain character
      have hq : c ≠ '"' := e1
      have hb : c ≠ '\\' := e2
      rw [List.singleton_append]
      rw [parseStrBody_plain c _ hq hb e8, ih, Option.map_some']

theorem digitChar_isDigit (n : Nat) : isDigitChar (digitChar n) = true := by
  rw [digitChar]
  have h : n % 10 < 10 := Nat.mod_lt _ (by omega)
  revert h
  generalize n % 10 = m
  revert m
  decide

theorem digitChar_val (n : Nat) (h : n < 10) : (digitChar n).toNat - 48 = n % 10 := by
  revert h
  revert n
  decide

theorem parseDigits_stop (l : List Char) (acc : Nat) (h : digitHead l = false) :
    parseDigits l acc = (acc, l) := by
  cases l with
  | nil => rfl
  | cons c r =>
    rw [digitHead] at h
    rw [parseDigits, if_neg (by simp [h])]

theorem parseDigits_all (ds : List Char) (acc : Nat) (rest : List Char)
    (h : ∀ c ∈ ds, isDigitChar c = true) :
    parseDigits (ds ++ rest) acc =
      parseDigits rest (ds.foldl (fun a c => a * 10 + (c.toNat - 48)) acc) := by
  induction ds generalizing acc with
  | nil => rfl
  | cons c cs ih =>
    rw [List.cons_append, parseDigits,
      if_pos (by simp [h c (by simp)]), List.foldl_cons]
    exact ih _ (fun x hx => h x (by simp [hx]))

theorem natDigits_all_digits (fuel : Nat) :
    ∀ n c, c ∈ natDigits fuel n → isDigitChar c = true := by
  induction fuel with
  | zero => intro n c hc; simp [natDigits] at hc
  | succ f ih =>
    intro n c hc
    rw [natDigits] at hc
    by_cases h : n < 10
    · rw [if_pos h] at hc
      simp at hc
      rw [hc]
      exact digitChar_isDigit n
    · rw [if_neg h] at hc
      rcases List.mem_append.mp hc with h1 | h1
      · exact ih _ _ h1
      · simp at h1
        rw [h1]
        exact digitChar_isDigit _

theorem foldl_natDigits (fuel : Nat) :
    ∀ n acc, n < fuel →
      (natDigits fuel n).foldl (fun a c => a * 10 + (c.toNat - 48)) acc =
        acc * 10 ^ (natDigits fuel n).length + n := by
  induction fuel with
  | zero => intro n acc h; omega
  | succ f ih =>
    intro n acc h
    rw [natDigits]
    by_cases h10 : n < 10
    · rw [if_pos h10]
      simp only [List.foldl_cons, List.foldl_nil, List.length_singleton]
      have := digitChar_val n h10
      have : (digitChar n).toNat - 48 = n := by omega
      rw [this, pow_one]
    · rw [if_neg h10]
      rw [List.foldl_append, List.length_append]
      have hlt : n / 10 < f := by omega
      rw [ih _ acc hlt]
      simp only [List.foldl_cons, List.foldl_nil, List.length_singleton]
      have hv : (digitChar (n % 10)).toNat - 48 = n % 10 := by
        have := digitChar_val (n % 10) (Nat.mod_lt _ (by omega))
        omega
      rw [hv, pow_succ]
      have : acc * (10 ^ (natDigits f (n / 10)).length * 10) =
          acc * 10 ^ (natDigits f (n / 10)).length * 10 := by ring
      rw [this]
      omega

theorem natDigits_head (fuel : Nat) :
    ∀ n, 0 < n → n < fuel →
      ∃ c cs, natDigits fuel n = c :: cs ∧ c ≠ '0' ∧ isDigitChar c = true := by
  induction fuel with
  | zero => intro n h1 h2; omega
  | succ f ih =>
    intro n h1 h2
    rw [natDigits]
    by_cases h10 : n < 10
    · rw [if_pos h10]
      refine ⟨digitChar n, [], rfl, ?_, digitChar_isDigit n⟩
      have hd : ∀ m, m < 10 → 0 < m → hexDigit m ≠ '0' := by decide
      rw [digitChar]
      exact hd (n % 10) (by omega) (by omega)
    · rw [if_neg h10]
      obtain ⟨c, cs, heq, hne, hdig⟩ := ih (n / 10) (by omega) (by omega)
      exact ⟨c, cs ++ [digitChar (n % 10)], by rw [heq, List.cons_append], hne, hdig⟩

theorem parseNatTok_natToChars (n : Nat) (rest : List Char)
    (h : digitHead rest = false) :
    parseNatTok (natToChars n ++ rest) = some (n, rest) := by
  by_cases h0 : n = 0
  · subst h0
    show parseNatTok ('0' :: rest) = some (0, rest)
    rw [parseNatTok, if_pos rfl, h]
    rfl
  · obtain ⟨c, cs, heq, hne, hdig⟩ := natDigits_head (n + 1) n (by omega) (by omega)
    rw [natToChars, heq, List.cons_append, parseNatTok, if_neg hne, if_pos hdig]
    have hall : ∀ x ∈ cs, isDigitChar x = true := by
      intro x hx
      exact natDigits_all_digits (n + 1) n x (by rw [heq]; simp [hx])
    rw [parseDigits_all cs _ rest hall, parseDigits_stop _ _ h]
    have hfold := foldl_natDigits (n + 1) n 0 (by omega)
    rw [heq] at hfold
    simp only [List.foldl_cons, Nat.zero_mul, Nat.zero_add] at hfold
    rw [hfold]

theorem digit_ne_minus (c : Char) (h : isDigitChar c = true) : c ≠ '-' := by
  apply charNe_of_toNat_ne
  simp only [isDigitChar, Bool.and_eq_true, decide_eq_true_eq] at h
  intro he
  rw [he] at h
  revert h
  decide

theorem natToChars_head_digit (n : Nat) :
    ∃ c cs, natToChars n = c :: cs ∧ isDigitChar c = true := by
  by_cases h0 : n = 0
  · subst h0
    exact ⟨'0', [], rfl, by decide⟩
  · obtain ⟨c, cs, heq, _, hdig⟩ := natDigits_head (n + 1) n (by omega) (by omega)
    exact ⟨c, cs, by rw [natToChars, heq], hdig⟩

theorem parseNumTok_intToChars (i : Int) (rest : List Char)
    (h : digitHead rest = false) :
    parseNumTok (intToChars i ++ rest) = some (i, rest) := by
  rw [intToChars]
  by_cases hneg : i < 0
  · rw [if_pos hneg, List.cons_append, parseNumTok, if_pos rfl,
      parseNatTok_natToChars _ _ h, Option.map_some']
    have : -((i.natAbs : Nat) : Int) = i := by
      omega
    rw [this]
  · rw [if_neg hneg]
    obtain ⟨c, cs, heq, hdig⟩ := natToChars_head_digit i.natAbs
    rw [heq, List.cons_append, parseNumTok, if_neg (digit_ne_minus c hdig),
      ← List.cons_append, ← heq, parseNatTok_natToChars _ _ h, Option.map_some']
    have : ((i.natAbs : Nat) : Int) = i := by
      omega
    rw [this]

/-! ## Parser steps on serialized text -/

theorem escString_append (s x : List Char) :
    escString s ++ x = '"' :: (escBody s ++ '"' :: x) := by
  simp [escString, List.append_assoc]

theorem parseP_value_obj (f : Nat) (l : List Char) :
    parseP (f + 1) .value ('\x7b' :: l) = parseP f .objFirst l := rfl

theorem parseP_value_arr (f : Nat) (l : List Char) :
    parseP (f + 1) .value ('[' :: l) = parseP f .arrFirst l := rfl

theorem parseP_value_str (f : Nat) (s rest : List Char) :
    parseP (f + 1) .value ('"' :: (escBody s ++ '"' :: rest)) =
      some (.str s, rest) := by
  show (parseStrBody (escBody s ++ '"' :: rest)).map
    (fun p => (Json.str p.1, p.2)) = _
  rw [parseStrBody_escBody, Option.map_some']

theorem parseP_objFirst_quote (f : Nat) (l : List Char) :
    parseP (f + 1) .objFirst ('"' :: l) = parseP f .objPair ('"' :: l) := rfl

theorem parseP_objPair_key (f : Nat) (s l : List Char) :
    parseP (f + 1) .objPair ('"' :: (escBody s ++ '"' :: l)) =
      (expectColon l).bind fun r2 =>
        (parseP f .value r2).bind fun vp =>
          (parseP f .objRest vp.2).bind fun tp => consObj s vp.1 tp := by
  show (parseStrBody (escBody s ++ '"' :: l)).bind _ = _
  rw [parseStrBody_escBody]
  rfl

theorem expectColon_cons (l : List Char) : expectColon (':' :: l) = some l := rfl

theorem parseP_objRest_comma (f : Nat) (l : List Char) :
    parseP (f + 1) .objRest (',' :: l) = parseP f .objPair l := rfl

theorem parseP_objRest_close (f : Nat) (l : List Char) :
    parseP (f + 1) .objRest ('\x7d' :: l) = some (.obj .nil, l) := rfl

theorem parseP_arrFirst_close (f : Nat) (l : List Char) :
    parseP (f + 1) .arrFirst (']' :: l) = some (.arr .nil, l) := rfl

theorem parseP_arrFirst_quote (f : Nat) (l : List Char) :
    parseP (f + 1) .arrFirst ('"' :: l) =
      (parseP f .value ('"' :: l)).bind fun vp =>
        (parseP f .arrRest vp.2).bind fun tp => consArr vp.1 tp := rfl

theorem parseP_arrFirst_bracket (f : Nat) (l : List Char) :
    parseP (f + 1) .arrFirst ('[' :: l) =
      (parseP f .value ('[' :: l)).bind fun vp =>
        (parseP f .arrRest vp.2).bind fun tp => consArr vp.1 tp := rfl

theorem parseP_arrRest_close (f : Nat) (l : List Char) :
    parseP (f + 1) .arrRest (']' :: l) = some (.arr .nil, l) := rfl

theorem parseP_arrRest_comma (f : Nat) (l : List Char) :
    parseP (f + 1) .arrRest (',' :: l) =
      (parseP f .value l).bind fun vp =>
        (parseP f .arrRest vp.2).bind fun tp => consArr vp.1 tp := rfl

theorem parseP_value_head (f : Nat) (c : Char) (r : List Char)
    (hws : skipWs (c :: r) = c :: r) :
    parseP (f + 1) .value (c :: r) =
      if c = '"' then (parseStrBody r).map (fun p => (Json.str p.1, p.2))
      else if c = '\x7b' then parseP f .objFirst r
      else if c = '[' then parseP f .arrFirst r
      else if c = 't' then (dropLit "rue".data r).map (fun r2 => (Json.bool true, r2))
      else if c = 'f' then (dropLit "alse".data r).map (fun r2 => (Json.bool false, r2))
      else if c = 'n' then (dropLit "ull".data r).map (fun r2 => (Json.null, r2))
      else (parseNumTok (c :: r)).map (fun p => (Json.num p.1, p.2)) := by
  rw [parseP, hws]

theorem intToChars_decompose (i : Int) :
    ∃ c cs, intToChars i = c :: cs ∧ (c = '-' ∨ isDigitChar c = true) := by
  rw [intToChars]
  by_cases hneg : i < 0
  · rw [if_pos hneg]
    exact ⟨'-', natToChars i.natAbs, rfl, Or.inl rfl⟩
  · rw [if_neg hneg]
    obtain ⟨c, cs, heq, hdig⟩ := natToChars_head_digit i.natAbs
    exact ⟨c, cs, heq, Or.inr hdig⟩

theorem parseP_value_num (f : Nat) (i : Int) (rest : List Char)
    (h : digitHead rest = false) :
    parseP (f + 1) .value (intToChars i ++ rest) = some (.num i, rest) := by
  obtain ⟨c, cs, heq, hc⟩ := intToChars_decompose i
  have hnum := parseNumTok_intToChars i rest h
  rw [heq] at hnum ⊢
  rw [List.cons_append] at hnum ⊢
  have hcn : c.toNat = 45 ∨ (48 ≤ c.toNat ∧ c.toNat ≤ 57) := by
    rcases hc with hc | hc
    · left; rw [hc]; rfl
    · right
      simpa [isDigitChar] using hc
  have hskip : skipWs (c :: (cs ++ rest)) = c :: (cs ++ rest) := by
    rw [skipWs, if_neg]
    intro hor
    rcases hor with h1 | h1 | h1 | h1 <;>
      { have := congrArg Char.toNat h1; revert this; simp; omega }
  rw [parseP_value_head f c _ hskip]
  rw [if_neg (by intro h1; have := congrArg Char.toNat h1; revert this; simp; omega)]
  rw [if_neg (by intro h1; have := congrArg Char.toNat h1; revert this; simp; omega)]
  rw [if_neg (by intro h1; have := congrArg Char.toNat h1; revert this; simp; omega)]
  rw [if_neg (by intro h1; have := congrArg Char.toNat h1; revert this; simp; omega)]
  rw [if_neg (by intro h1; have := congrArg Char.toNat h1; revert this; simp; omega)]
  rw [if_neg (by intro h1; have := congrArg Char.toNat h1; revert this; simp; omega)]
  rw [hnum]
  rfl

theorem stringifyTag_two (x y : List Char) :
    stringifyTag [x, y] = '[' :: (escString x ++ ',' :: (escString y ++ [']'])) := by
  simp [stringifyTag, commaSep, List.append_assoc]

theorem stringifyTags_two (t1 t2 : List (List Char)) :
    stringifyTags [t1, t2] =
      '[' :: (stringifyTag t1 ++ ',' :: (stringifyTag t2 ++ [']'])) := by
  simp [stringifyTags, commaSep, List.append_assoc]

theorem parseP_value_num_comma (f : Nat) (i : Int) (l : List Char) :
    parseP (f + 1) .value (intToChars i ++ (',' :: l)) = some (.num i, ',' :: l) :=
  parseP_value_num f i _ rfl

/-- Parse of a serialized two-string tag, in list normal form. -/
theorem parseP_tag2x (g : Nat) (x y : List Char) (z : List Char) :
    parseP (g + 5) .value
      ('[' :: ('"' :: (escBody x ++ '"' ::
        (',' :: ('"' :: (escBody y ++ '"' :: (']' :: z))))))) =
      some (.arr (.cons (.str x) (.cons (.str y) .nil)), z) := by
  rw [parseP_value_arr, parseP_arrFirst_quote, parseP_value_str]
  simp only [Option.some_bind]
  rw [parseP_arrRest_comma, parseP_value_str]
  simp only [Option.some_bind]
  rw [parseP_arrRest_close]
  simp only [Option.some_bind]
  rfl

/-- Parse of the serialized two-tag `tags` array. -/
theorem parseP_tags2 (g : Nat) (a b c d : List Char) (rest : List Char) :
    parseP (g + 8) .value (stringifyTags [[a, b], [c, d]] ++ rest) =
      some (.arr (.cons (.arr (.cons (.str a) (.cons (.str b) .nil)))
        (.cons (.arr (.cons (.str c) (.cons (.str d) .nil))) .nil)), rest) := by
  rw [stringifyTags_two]
  simp only [stringifyTag_two, List.cons_append, List.append_assoc,
    List.singleton_append, List.nil_append, escString_append]
  rw [parseP_value_arr, parseP_arrFirst_bracket, parseP_tag2x]
  simp only [Option.some_bind]
  rw [parseP_arrRest_comma, parseP_tag2x]
  simp only [Option.some_bind]
  rw [parseP_arrRest_close]
  simp only [Option.some_bind]
  rfl

/-- Parse of a serialized signed event whose tags are two two-string tags
(the shape produced by `getToken` without a payload). -/
theorem parseP_stringifyEvent (g : Nat) (k t : Int)
    (a b c d cont pk sg : List Char) (rest : List Char) :
    parseP (g + 30) .value
      (stringifyEvent ⟨k, [[a, b], [c, d]], t, cont, pk, sg⟩ ++ rest) =
      some (eventToJson ⟨k, [[a, b], [c, d]], t, cont, pk, sg⟩, rest) := by
  dsimp only [stringifyEvent]
  simp only [List.cons_append, List.append_assoc, List.singleton_append,
    List.nil_append, escString_append]
  rw [parseP_value_obj, parseP_objFirst_quote, parseP_objPair_key,
    expectColon_cons]
  simp only [Option.some_bind]
  rw [parseP_value_num_comma]
  simp only [Option.some_bind]
  rw [parseP_objRest_comma, parseP_objPair_key, expectColon_cons]
  simp only [Option.some_bind]
  rw [parseP_tags2]
  simp only [Option.some_bind]
  rw [parseP_objRest_comma, parseP_objPair_key, expectColon_cons]
  simp only [Option.some_bind]
  rw [parseP_value_num_comma]
  simp only [Option.some_bind]
  rw [parseP_objRest_comma, parseP_objPair_key, expectColon_cons]
  simp only [Option.some_bind]
  rw [parseP_value_str]
  simp only [Option.some_bind]
  rw [parseP_objRest_comma, parseP_objPair_key, expectColon_cons]
  simp only [Option.some_bind]
  rw [parseP_value_str]
  simp only [Option.some_bind]
  rw [parseP_objRest_comma, parseP_objPair_key, expectColon_cons]
  simp only [Option.some_bind]
  rw [parseP_value_str]
  simp only [Option.some_bind]
  rw [parseP_objRest_close]
  simp only [Option.some_bind]
  rfl

/-! ## Unpack of a freshly generated token -/

theorem stringifyEvent_length (k t : Int) (a b c d cont pk sg : List Char) :
    29 ≤ (stringifyEvent ⟨k, [[a, b], [c, d]], t, cont, pk, sg⟩).length := by
  dsimp only [stringifyEvent]
  rw [stringifyTags_two, stringifyTag_two, stringifyTag_two]
  simp only [escString, List.length_append, List.length_cons]
  omega

theorem parseJson_stringifyEvent (k t : Int)
    (a b c d cont pk sg : List Char) :
    parseJson (stringifyEvent ⟨k, [[a, b], [c, d]], t, cont, pk, sg⟩) =
      some (eventToJson ⟨k, [[a, b], [c, d]], t, cont, pk, sg⟩) := by
  have hlen := stringifyEvent_length k t a b c d cont pk sg
  obtain ⟨g, hg⟩ : ∃ g,
      (stringifyEvent ⟨k, [[a, b], [c, d]], t, cont, pk, sg⟩).length + 1 =
        g + 30 :=
    ⟨(stringifyEvent ⟨k, [[a, b], [c, d]], t, cont, pk, sg⟩).length - 29,
      by omega⟩
  rw [parseJson, hg]
  have hp := parseP_stringifyEvent g k t a b c d cont pk sg []
  rw [List.append_nil] at hp
  rw [hp, Option.some_bind]
  rfl

theorem eventFromJson_eventToJson (k t : Int)
    (a b c d cont pk sg : List Char) :
    eventFromJson (eventToJson ⟨k, [[a, b], [c, d]], t, cont, pk, sg⟩) =
      some ⟨k, [[a, b], [c, d]], t, cont, pk, sg⟩ := rfl

theorem b64Encode_ne_nil (bs : List Nat) (h : bs ≠ []) : b64Encode bs ≠ [] := by
  induction bs using b64Encode.induct with
  | case1 => exact absurd rfl h
  | case2 a => simp [b64Encode]
  | case3 a b => simp [b64Encode]
  | case4 a b c rest ih => simp [b64Encode]

theorem utf8Encode_cons_ne_nil (c : Char) (cs : List Char) :
    utf8Encode (c :: cs) ≠ [] := by
  rw [utf8Encode]
  intro h
  exact utf8EncodeChar_ne_nil c (List.append_eq_nil.mp h).1

theorem b64Encode_no_space (bs : List Nat) : ' ' ∉ b64Encode bs := by
  induction bs using b64Encode.induct with
  | case1 => simp [b64Encode]
  | case2 a =>
    simp [b64Encode]
    exact ⟨fun h => b64Char_ne_space _ h.symm, fun h => b64Char_ne_space _ h.symm⟩
  | case3 a b =>
    simp [b64Encode]
    exact ⟨fun h => b64Char_ne_space _ h.symm, fun h => b64Char_ne_space _ h.symm,
      fun h => b64Char_ne_space _ h.symm⟩
  | case4 a b c rest ih =>
    simp [b64Encode]
    refine ⟨fun h => b64Char_ne_space _ h.symm, fun h => b64Char_ne_space _ h.symm,
      fun h => b64Char_ne_space _ h.symm, fun h => b64Char_ne_space _ h.symm, ?_⟩
    intro h
    exact ih h

theorem replaceFirst_eq_self (s pat repl : List Char) (c : Char)
    (hc : c ∈ pat) (hs : c ∉ s) : replaceFirst s pat repl = s := by
  induction s with
  | nil =>
    rw [replaceFirst.eq_def]
    cases pat with
    | nil => cases hc
    | cons p ps => rw [if_neg (by simp [List.isPrefixOf])]
  | cons c2 s2 ih =>
    rw [replaceFirst.eq_def]
    rw [if_neg]
    · show c2 :: replaceFirst s2 pat repl = c2 :: s2
      rw [ih (fun hmem => hs (List.mem_cons_of_mem _ hmem))]
    · intro hpre
      exact hs ((List.isPrefixOf_iff_prefix.mp hpre).subset hc)

theorem replaceFirstAtStart (t pat repl : List Char) :
    replaceFirst (pat ++ t) pat repl = repl ++ t := by
  rw [replaceFirst.eq_def]
  rw [if_pos (List.isPrefixOf_iff_prefix.mpr (List.prefix_append pat t))]
  rw [List.drop_left]

theorem unpack_decode_some (token : List Char) (bytes : List Nat)
    (h0 : token ≠ [])
    (h1 : b64Decode (replaceFirst token schemeChars []) = some bytes) :
    unpackEventFromToken token = unpackStage1 bytes := by
  unfold unpackEventFromToken
  rw [if_neg h0, h1]

theorem unpackStage1_some (bytes : List Nat) (s : List Char)
    (h : utf8Decode bytes = some s) : unpackStage1 bytes = unpackStage2 s := by
  unfold unpackStage1
  rw [h]

theorem unpackStage2_some (s : List Char) (j : Json)
    (hhead : s.head? = some '\x7b') (hp : parseJson s = some j) :
    unpackStage2 s = unpackStage3 j := by
  unfold unpackStage2
  rw [if_neg (by simp [hhead]), hp]

theorem unpackStage3_some (j : Json) (e : NostrEvent)
    (h : eventFromJson j = some e) : unpackStage3 j = .ok e := by
  unfold unpackStage3
  rw [h]

theorem unpackEventFromToken_encode (k t : Int)
    (a b c d cont pk sg : List Char) :
    unpackEventFromToken
      (b64Encode (utf8Encode
        (stringifyEvent ⟨k, [[a, b], [c, d]], t, cont, pk, sg⟩))) =
      .ok ⟨k, [[a, b], [c, d]], t, cont, pk, sg⟩ := by
  have hne : b64Encode (utf8Encode
      (stringifyEvent ⟨k, [[a, b], [c, d]], t, cont, pk, sg⟩)) ≠ [] :=
    b64Encode_ne_nil _ (by
      dsimp only [stringifyEvent]
      exact utf8Encode_cons_ne_nil _ _)
  rw [unpack_decode_some _ _ hne (by
    rw [replaceFirst_eq_self _ _ _ ' ' (by decide) (b64Encode_no_space _)]
    exact b64Decode_b64Encode _ (utf8Encode_lt_256 _))]
  rw [unpackStage1_some _ _ (utf8Decode_utf8Encode _)]
  rw [unpackStage2_some _ _ (by dsimp only [stringifyEvent]; rfl)
    (parseJson_stringifyEvent k t a b c d cont pk sg)]
  rw [unpackStage3_some _ _ (eventFromJson_eventToJson k t a b c d cont pk sg)]

/-! ## Validation of a fresh, untampered event -/

theorem validateToken_ok (now : Int) (token url method : List Char)
    (body : Option Json) (e : NostrEvent)
    (h1 : unpackEventFromToken token = .ok e)
    (h2 : validateEvent now e url method body = .ok true) :
    validateToken now token url method body = true := by
  unfold validateToken
  rw [h1]
  show (match validateEvent now e url method body with
    | Except.error _ => false
    | Except.ok b => b) = true
  rw [h2]

theorem validateEvent_fresh (now : Int) (hnow : 0 < now)
    (url method pk sg : List Char) :
    validateEvent now
      ⟨27235, [["u".data, url], ["method".data, asciiUpper method]],
        now, [], pk, sg⟩ url method none = .ok true := by
  have hkind : validateEventKind
      ⟨27235, [["u".data, url], ["method".data, asciiUpper method]],
        now, [], pk, sg⟩ = true := rfl
  have hts : validateEventTimestamp now
      ⟨27235, [["u".data, url], ["method".data, asciiUpper method]],
        now, [], pk, sg⟩ = true := by
    unfold validateEventTimestamp
    rw [if_neg (by simp; omega)]
    simp only [decide_eq_true_eq]
    omega
  have hfindu : findTag
      [["u".data, url], ["method".data, asciiUpper method]] "u".data =
      some ["u".data, url] := rfl
  have hurl : validateEventUrlTag
      ⟨27235, [["u".data, url], ["method".data, asciiUpper method]],
        now, [], pk, sg⟩ url = true := by
    unfold validateEventUrlTag
    rw [hfindu]
    simp
  have hfindm : findTag
      [["u".data, url], ["method".data, asciiUpper method]] "method".data =
      some ["method".data, asciiUpper method] := rfl
  have hmethod : validateEventMethodTag
      ⟨27235, [["u".data, url], ["method".data, asciiUpper method]],
        now, [], pk, sg⟩ method = true := by
    unfold validateEventMethodTag
    rw [hfindm]
    simp only [List.length_cons, List.length_nil]
    rw [if_neg (by omega)]
    simp only [List.getD, List.get?, decide_eq_true_eq]
    exact asciiLower_asciiUpper method
  unfold validateEvent
  rw [hkind, hts, hurl, hmethod]
  simp

theorem signEventS_ok (st : AuthState)
    (cap : NostrEventTemplate → Except (List Char) NostrEvent)
    (tmpl : NostrEventTemplate) (ev : NostrEvent)
    (hauth : st.isAuthenticated = true) (hcap : cap tmpl = .ok ev) :
    signEventS true st cap tmpl = .ok ev := by
  unfold signEventS
  rw [if_neg (by simp), if_neg (by rw [hauth]; simp), hcap]

theorem getToken_ok_eq (st : AuthState)
    (cap : NostrEventTemplate → Except (List Char) NostrEvent)
    (url method : List Char) (payload : Option Json) (now : Int)
    (ev : NostrEvent)
    (hauth : st.isAuthenticated = true)
    (hcap : cap (buildTemplate url method payload now) = .ok ev) :
    getToken true st cap url method false payload now =
      .ok (b64Encode (utf8Encode (stringifyEvent ev))) := by
  unfold getToken
  rw [if_neg (by simp), if_neg (by rw [hauth]; simp),
    signEventS_ok st cap _ ev hauth hcap]
  rfl

/-- C1: for every URL and method, with the signer session connected and an
external signer that returns a signed event preserving the template's
`kind`, `created_at`, `content` and `tags`, a token obtained from
`getToken` validates successfully at the same clock instant. -/
theorem C1_token_roundtrip (url method token : List Char) (now : Int)
    (st : AuthState) (cap : NostrEventTemplate → Except (List Char) NostrEvent)
    (ev : NostrEvent)
    (hauth : st.isAuthenticated = true)
    (hnow : 0 < now)
    (hcap : cap (buildTemplate url method none now) = .ok ev)
    (hkind : ev.kind = (buildTemplate url method none now).kind)
    (hts : ev.created_at = (buildTemplate url method none now).created_at)
    (hcontent : ev.content = (buildTemplate url method none now).content)
    (htags : ev.tags = (buildTemplate url method none now).tags)
    (htok : getToken true st cap url method false none now = .ok token) :
    validateToken now token url method none = true := by
  have h2 := getToken_ok_eq st cap url method none now ev hauth hcap
  rw [h2] at htok
  have htokeq : b64Encode (utf8Encode (stringifyEvent ev)) = token :=
    Except.ok.inj htok
  obtain ⟨k, tg, ts, ct, pk, sg⟩ := ev
  have hkind' : k = 27235 := hkind
  have hcontent' : ct = [] := hcontent
  have htags' : tg = [["u".data, url], ["method".data, asciiUpper method]] :=
    htags
  have hts' : ts = now := hts
  subst hkind'
  subst hcontent'
  subst htags'
  subst htokeq
  rw [hts']
  exact validateToken_ok now _ url method none _
    (unpackEventFromToken_encode 27235 now "u".data url "method".data
      (asciiUpper method) [] pk sg)
    (validateEvent_fresh now hnow url method pk sg)

/-- Witness for C1 at a concrete URL, method, clock instant and signer. -/
theorem C1_token_roundtrip_witness :
    validateToken 1700000000 c1Token c1Url c1Method none = true :=
  C1_token_roundtrip c1Url c1Method c1Token 1700000000 c1St c1Cap c1Ev rfl
    (by decide) rfl rfl rfl rfl rfl rfl

/-! ## Signer-session state invariants -/

theorem foldl_stepAuth_pubkey (ops : List SignerOp) :
    ∀ st : AuthState, (ops.foldl stepAuth st).pubkey.isSome = true →
      st.pubkey.isSome = true ∨ ∃ pk name, SignerOp.connectOk pk name ∈ ops := by
  induction ops with
  | nil =>
    intro st h
    exact Or.inl h
  | cons op ops ih =>
    intro st h
    rw [List.foldl_cons] at h
    rcases ih (stepAuth st op) h with h1 | ⟨pk, name, hmem⟩
    · cases op with
      | detect name => exact Or.inl h1
      | connectOk pk name => exact Or.inr ⟨pk, name, List.mem_cons_self _ _⟩
      | connectFail => exact Or.inl h1
      | disconnect name => exact Or.inl h1
    · exact Or.inr ⟨pk, name, List.mem_cons_of_mem _ hmem⟩

theorem foldl_stepAuth_auth (ops : List SignerOp)
    (hops : ∀ pk name, SignerOp.connectOk pk name ∉ ops) :
    ∀ st : AuthState, st.isAuthenticated = false →
      (ops.foldl stepAuth st).isAuthenticated = false := by
  induction ops with
  | nil =>
    intro st h
    exact h
  | cons op ops ih =>
    intro st h
    rw [List.foldl_cons]
    have hops2 : ∀ pk name, SignerOp.connectOk pk name ∉ ops :=
      fun pk name hmem => hops pk name (List.mem_cons_of_mem _ hmem)
    cases op with
    | detect name => exact ih hops2 _ rfl
    | connectOk pk name =>
      exact absurd (List.mem_cons_self _ _) (hops pk name)
    | connectFail => exact ih hops2 _ h
    | disconnect name => exact ih hops2 _ rfl

/-- C2 (counterexample): after a successful `connect()` followed by
`disconnect()`, `pubkey` is still set while `isAuthenticated` is false,
because `disconnect` spreads the previous state and never clears `pubkey`. -/
theorem C2_pubkey_counterexample :
    (runAuth [.connectOk "aa".data none, .disconnect none]).pubkey.isSome = true ∧
      (runAuth [.connectOk "aa".data none,
        .disconnect none]).isAuthenticated = false := by
  decide

/-- C2 (amended): in every reachable state, `pubkey` is set only if some
earlier `connect()` succeeded; `disconnect()` clears `isAuthenticated` but
leaves `pubkey` in place. -/
theorem C2_pubkey_only_after_connect (ops : List SignerOp)
    (h : (runAuth ops).pubkey.isSome = true) :
    ∃ pk name, SignerOp.connectOk pk name ∈ ops := by
  rcases foldl_stepAuth_pubkey ops initialAuthState h with h1 | h1
  · simp [initialAuthState] at h1
  · exact h1

/-- Witness for the amended C2. -/
theorem C2_pubkey_only_after_connect_witness :
    ∃ pk name, SignerOp.connectOk pk name ∈
      [SignerOp.connectOk "aa".data none, SignerOp.disconnect none] :=
  C2_pubkey_only_after_connect _ (by decide)

/-! ## Timestamp validation -/

/-- C3: whenever the clock reads at least 60 seconds past the epoch (true
of every real clock), the timestamp check rejects exactly when
`now - created_at ≥ 60`; an event 59 seconds old passes and one 61 seconds
old fails, and the failure surfaces as the timestamp (`TokenExpired`)
error from `validateEvent`. -/
theorem C3_timestamp_boundary (e : NostrEvent) (now : Int) (hnow : 60 ≤ now) :
    (validateEventTimestamp now e = false ↔ 60 ≤ now - e.created_at)
    ∧ (e.created_at = now - 59 → validateEventTimestamp now e = true)
    ∧ (e.created_at = now - 61 → validateEventTimestamp now e = false)
    ∧ (∀ url method body, validateEventKind e = true →
        validateEventTimestamp now e = false →
        validateEvent now e url method body = .error msgTimestampOld) := by
  have hiff : validateEventTimestamp now e = false ↔ 60 ≤ now - e.created_at := by
    unfold validateEventTimestamp
    by_cases h0 : e.created_at = 0
    · rw [if_pos h0]
      constructor
      · intro _
        omega
      · intro _
        rfl
    · rw [if_neg h0]
      simp only [decide_eq_false_iff_not]
      omega
  refine ⟨hiff, ?_, ?_, ?_⟩
  · intro h59
    cases hb : validateEventTimestamp now e with
    | false =>
      have := hiff.mp hb
      omega
    | true => rfl
  · intro h61
    exact hiff.mpr (by omega)
  · intro url method body hkind hts
    unfold validateEvent
    rw [hkind, hts]
    rw [if_neg (by simp), if_pos rfl]

/-- Witness for C3: at clock 100, a 59-second-old event passes and a
61-second-old event is rejected with the timestamp error. -/
theorem C3_timestamp_boundary_witness :
    validateEventTimestamp 100 ⟨27235, [], 41, [], [], []⟩ = true ∧
      validateEvent 100 ⟨27235, [], 39, [], [], []⟩ [] [] none =
        .error msgTimestampOld :=
  ⟨(C3_timestamp_boundary ⟨27235, [], 41, [], [], []⟩ 100 (by decide)).2.1 rfl,
    (C3_timestamp_boundary ⟨27235, [], 39, [], [], []⟩ 100 (by decide)).2.2.2
      [] [] none rfl (by decide)⟩

/-! ## Kind validation -/

/-- C4: an event whose `kind` is not 27235 always fails validation with the
`WrongEventKind` error, regardless of every other field. -/
theorem C4_wrong_kind (now : Int) (e : NostrEvent) (url method : List Char)
    (body : Option Json) (h : e.kind ≠ 27235) :
    validateEventKind e = false ∧
      validateEvent now e url method body = .error msgInvalidKind := by
  have hk : validateEventKind e = false := by
    unfold validateEventKind HTTPAuthKind
    simp [h]
  refine ⟨hk, ?_⟩
  unfold validateEvent
  rw [hk, if_pos rfl]

/-- Witness for C4: an otherwise perfectly valid event of kind 1 is
rejected with the kind error. -/
theorem C4_wrong_kind_witness :
    validateEvent 1700000000
      ⟨1, [["u".data, "https://x.example/".data], ["method".data, "GET".data]],
        1700000000, [], [], []⟩
      "https://x.example/".data "get".data none = .error msgInvalidKind :=
  (C4_wrong_kind 1700000000 _ _ _ none (by decide)).2

/-- C10: the timestamp check accepts events dated arbitrarily far in the
future: for any nonnegative clock, `created_at > now` always passes, since
`now - created_at` is negative. -/
theorem C10_future_timestamps_accepted (e : NostrEvent) (now : Int)
    (h0 : 0 ≤ now) (h1 : now < e.created_at) :
    validateEventTimestamp now e = true := by
  unfold validateEventTimestamp
  rw [if_neg (by omega)]
  simp only [decide_eq_true_eq]
  omega

/-- Witness for C10: an event dated ten years ahead passes the check. -/
theorem C10_future_timestamps_accepted_witness :
    validateEventTimestamp 1700000000
      ⟨27235, [], 2015360000, [], [], []⟩ = true :=
  C10_future_timestamps_accepted _ 1700000000 (by decide) (by decide)

/-! ## Signing while disconnected -/

/-- C7: with no successful `connect()` in the session history, `signEvent`
fails — with the `NotConnected` message whenever an extension is present —
and the external capability is never invoked (the result does not depend
on it). -/
theorem C7_sign_disconnected (ops : List SignerOp)
    (hops : ∀ pk name, SignerOp.connectOk pk name ∉ ops)
    (tmpl : NostrEventTemplate) (extAvail : Bool)
    (cap cap' : NostrEventTemplate → Except (List Char) NostrEvent) :
    (∃ msg, signEventS extAvail (runAuth ops) cap tmpl = .error msg)
    ∧ signEventS extAvail (runAuth ops) cap tmpl =
        signEventS extAvail (runAuth ops) cap' tmpl
    ∧ (extAvail = true →
        signEventS extAvail (runAuth ops) cap tmpl = .error msgNotConnected) := by
  have hst : (runAuth ops).isAuthenticated = false :=
    foldl_stepAuth_auth ops hops initialAuthState rfl
  cases extAvail with
  | false =>
    refine ⟨⟨msgNoExtension, rfl⟩, rfl, ?_⟩
    intro h
    cases h
  | true =>
    have h1 : ∀ c, signEventS true (runAuth ops) c tmpl = .error msgNotConnected := by
      intro c
      unfold signEventS
      rw [if_neg (by simp), if_pos hst]
    exact ⟨⟨msgNotConnected, h1 cap⟩, by rw [h1 cap, h1 cap'], fun _ => h1 cap⟩

/-- Witness for C7: signing in the never-connected session fails with the
`NotConnected` message. -/
theorem C7_sign_disconnected_witness :
    signEventS true (runAuth [SignerOp.detect "nos2x".data])
      (fun t => .ok ⟨t.kind, t.tags, t.created_at, t.content, [], []⟩)
      ⟨27235, [], 1, []⟩ = .error msgNotConnected :=
  (C7_sign_disconnected [SignerOp.detect "nos2x".data]
    (fun pk name h => by simp at h)
    ⟨27235, [], 1, []⟩ true _
    (fun t => .ok ⟨t.kind, t.tags, t.created_at, t.content, [], []⟩)).2.2 rfl

/-! ## Payload hashing: determinism and hex shape -/

theorem hexDigit_mem (n : Nat) : hexDigit n ∈ hexCharsLower := by
  by_cases h : n < hexCharsLower.length
  · rw [hexDigit, List.getD_eq_getElem _ _ h]
    exact List.getElem_mem h
  · rw [hexDigit, List.getD_eq_default _ _ (by omega)]
    decide

theorem bytesToHex_length (bs : List Nat) :
    (bytesToHex bs).length = 2 * bs.length := by
  induction bs with
  | nil => rfl
  | cons b r ih =>
    rw [bytesToHex, List.length_cons, List.length_cons, ih, List.length_cons]
    omega

theorem bytesToHex_mem (bs : List Nat) :
    ∀ ch ∈ bytesToHex bs, ch ∈ hexCharsLower := by
  induction bs with
  | nil => intro ch hch; cases hch
  | cons b r ih =>
    intro ch hch
    rw [bytesToHex] at hch
    rcases List.mem_cons.mp hch with h1 | hch2
    · rw [h1]
      exact hexDigit_mem _
    rcases List.mem_cons.mp hch2 with h1 | h3
    · rw [h1]
      exact hexDigit_mem _
    · exact ih ch h3

theorem sha256_length (msg : List Nat) : (sha256 msg).length = 32 := rfl

/-- C8: `hashPayload` is deterministic on identical serialized bytes, and
its output is the lowercase-hex encoding of the SHA-256 digest of the UTF-8
bytes of the payload's JSON serialization: 64 characters drawn from the
lowercase hexadecimal alphabet. -/
theorem C8_hashPayload_deterministic_hex (p q : Json) :
    (stringifyJson p = stringifyJson q → hashPayload p = hashPayload q)
    ∧ hashPayload p = bytesToHex (sha256 (utf8Encode (stringifyJson p)))
    ∧ (hashPayload p).length = 64
    ∧ ∀ ch ∈ hashPayload p, ch ∈ hexCharsLower := by
  refine ⟨?_, rfl, ?_, ?_⟩
  · intro h
    unfold hashPayload
    rw [h]
  · unfold hashPayload
    rw [bytesToHex_length, sha256_length]
  · intro ch hch
    exact bytesToHex_mem _ ch hch

/-- Witness for C8: two separately written but byte-identical payloads hash
identically. -/
theorem C8_hashPayload_deterministic_hex_witness :
    hashPayload (.obj (.cons "tier".data (.str "premium".data) .nil)) =
      hashPayload (.obj (.cons "tier".data (.str "premium".data) .nil)) :=
  (C8_hashPayload_deterministic_hex
    (.obj (.cons "tier".data (.str "premium".data) .nil))
    (.obj (.cons "tier".data (.str "premium".data) .nil))).1 rfl

/-! ## Scheme-prefix stripping -/

theorem replaceFirst_of_not_occurs (s pat repl : List Char)
    (h : occursIn s pat = false) : replaceFirst s pat repl = s := by
  induction s with
  | nil =>
    rw [replaceFirst.eq_def]
    unfold occursIn at h
    simp only [Bool.or_eq_false_iff] at h
    rw [if_neg (by simp [h.1])]
  | cons c r ih =>
    rw [replaceFirst.eq_def]
    unfold occursIn at h
    simp only [Bool.or_eq_false_iff] at h
    rw [if_neg (by simp [h.1])]
    show c :: replaceFirst r pat repl = c :: r
    rw [ih h.2]

/-- C9: a token that does not itself contain the scheme label validates
identically with and without the `"Nostr "` prefix: the verifier strips the
label before decoding. -/
theorem C9_scheme_prefix_equiv (t url method : List Char) (body : Option Json)
    (now : Int) (h : occursIn t schemeChars = false) :
    validateToken now (schemeChars ++ t) url method body =
      validateToken now t url method body := by
  by_cases ht : t = []
  · subst ht
    rfl
  · have h1 : unpackEventFromToken (schemeChars ++ t) = unpackEventFromToken t := by
      unfold unpackEventFromToken
      rw [if_neg (by simp [schemeChars]), if_neg ht]
      rw [replaceFirstAtStart, replaceFirst_of_not_occurs _ _ _ h,
        List.nil_append]
    unfold validateToken
    rw [h1]

/-- Witness for C9: the base64 token for the text `"hi"` (no scheme label
inside) validates to the same result either way. -/
theorem C9_scheme_prefix_equiv_witness :
    validateToken 1700000000 (schemeChars ++ "aGk=".data)
      "https://x.example/".data "get".data none =
      validateToken 1700000000 "aGk=".data
        "https://x.example/".data "get".data none :=
  C9_scheme_prefix_equiv "aGk=".data "https://x.example/".data "get".data
    none 1700000000 (by decide)

/-! ## Payload binding in `validateEvent` -/

theorem validateEvent_ok_checks (now : Int) (e : NostrEvent)
    (url method : List Char) (body : Option Json)
    (hok : validateEvent now e url method body = .ok true) :
    validateEventKind e = true ∧ validateEventTimestamp now e = true ∧
      validateEventUrlTag e url = true ∧
      validateEventMethodTag e method = true := by
  unfold validateEvent at hok
  split_ifs at hok with h1 h2 h3 h4
  exact ⟨by simpa using h1, by simpa using h2, by simpa using h3,
    by simpa using h4⟩

theorem validateEvent_reach_body (now : Int) (e : NostrEvent)
    (url method : List Char) (body : Option Json)
    (h1 : validateEventKind e = true) (h2 : validateEventTimestamp now e = true)
    (h3 : validateEventUrlTag e url = true)
    (h4 : validateEventMethodTag e method = true) :
    validateEvent now e url method body =
      match body with
      | some b =>
        if requiresPayloadCheckVal b then
          if validateEventPayloadTag e b = false then .error msgPayloadMismatch
          else .ok true
        else .ok true
      | none => .ok true := by
  unfold validateEvent
  rw [if_neg (by simp [h1]), if_neg (by simp [h2]), if_neg (by simp [h3]),
    if_neg (by simp [h4])]

/-- C6: the payload tag is checked exactly when the expected body is a
non-empty structured value.  With an absent, empty or non-structured body,
validation behaves as if no body were supplied (any payload tag is
ignored); with a non-empty structured body, an otherwise-valid event
validates exactly when its payload tag equals the body's hash, and
otherwise fails with the `PayloadMismatch` error. -/
theorem C6_payload_checked_iff_structured (now : Int) (e : NostrEvent)
    (url method : List Char) :
    (∀ body : Option Json, requiresPayloadCheck body = false →
      validateEvent now e url method body = validateEvent now e url method none)
    ∧ (∀ b : Json, requiresPayloadCheckVal b = true →
        validateEvent now e url method none = .ok true →
        (validateEventPayloadTag e b = true →
          validateEvent now e url method (some b) = .ok true)
        ∧ (validateEventPayloadTag e b = false →
          validateEvent now e url method (some b) =
            .error msgPayloadMismatch)) := by
  constructor
  · intro body hb
    unfold validateEvent
    split_ifs
    · rfl
    · rfl
    · rfl
    · rfl
    · cases body with
      | none => rfl
      | some b =>
        have hb2 : requiresPayloadCheckVal b = false := hb
        show (if requiresPayloadCheckVal b then
          if validateEventPayloadTag e b = false then
            Except.error msgPayloadMismatch
          else Except.ok true
          else Except.ok true) = Except.ok true
        rw [if_neg (by simp [hb2])]
  · intro b hreq hok
    obtain ⟨h1, h2, h3, h4⟩ := validateEvent_ok_checks now e url method none hok
    have hbody := validateEvent_reach_body now e url method (some b) h1 h2 h3 h4
    constructor
    · intro hp
      rw [hbody]
      show (if requiresPayloadCheckVal b then
        if validateEventPayloadTag e b = false then
          Except.error msgPayloadMismatch
        else Except.ok true
        else Except.ok true) = Except.ok true
      rw [if_pos (by simp [hreq]), if_neg (by simp [hp])]
    · intro hp
      rw [hbody]
      show (if requiresPayloadCheckVal b then
        if validateEventPayloadTag e b = false then
          Except.error msgPayloadMismatch
        else Except.ok true
        else Except.ok true) = Except.error msgPayloadMismatch
      rw [if_pos (by simp [hreq]), if_pos hp]

set_option maxRecDepth 100000 in
set_option maxHeartbeats 4000000 in
/-- C5: `getToken` on the settings URL with method `PATCH` and payload
`tier=premium` yields a token that `validateToken` accepts with the
lowercase method `patch` and the same expected body, while the same call
with expected body `tier=free` fails — specifically with the
`PayloadMismatch` error thrown by `validateEvent`. -/
theorem C5_patch_scenario :
    getToken true c5St c5Cap c5Url "PATCH".data false (some tierPremium)
        1700000000 = .ok c5Token
    ∧ validateToken 1700000000 c5Token c5Url "patch".data
        (some tierPremium) = true
    ∧ validateToken 1700000000 c5Token c5Url "patch".data
        (some tierFree) = false
    ∧ unpackEventFromToken c5Token = .ok c5Ev
    ∧ validateEvent 1700000000 c5Ev c5Url "patch".data (some tierFree) =
        .error msgPayloadMismatch := by
  refine ⟨rfl, rfl, rfl, rfl, rfl⟩

set_option maxRecDepth 100000 in
set_option maxHeartbeats 4000000 in
/-- Witness for C6 in the concrete scenario: with the premium body the
payload tag matches and validation succeeds; with the free body it fails
with the `PayloadMismatch` error. -/
theorem C6_payload_checked_iff_structured_witness :
    validateEvent 1700000000 c5Ev c5Url "patch".data (some tierPremium) =
        .ok true
    ∧ validateEvent 1700000000 c5Ev c5Url "patch".data (some tierFree) =
        .error msgPayloadMismatch :=
  have h := C6_payload_checked_iff_structured 1700000000 c5Ev c5Url "patch".data
  ⟨(h.2 tierPremium rfl rfl).1 rfl, (h.2 tierFree rfl rfl).2 rfl⟩

end Nip98
